import Mathlib

/-!
A shallow embedding of the identity-reconciliation core
(`controllers/identity.controllers.ts`: the `identify` handler and the
`formatResponse` projection) together with proofs of the specified
properties.

Modelling conventions:
* The Contact Store (Prisma/PostgreSQL) is modelled as a `List Contact`;
  it is not part of the sources, so where its behaviour matters it is
  modelled from the spec (see the doc comments of `sortContacts`,
  `freshId`, `freshCreatedAt`).
* JavaScript truthiness of optional strings (`!email`, `email && _`) is
  modelled by `present`: the empty string counts as absent, matching the
  spec, which groups "absent/empty" together.
* Strict equality `a === b` between a stored `string | null` field and a
  request `string | undefined` field is modelled by `jsEq`: it holds only
  when both sides are actual strings and equal (`null === undefined` is
  false in JavaScript).
* Timestamps are modelled as natural numbers; only their order matters.
-/

namespace IdentityRecon

inductive LinkPrecedence where
  | primary
  | secondary
deriving DecidableEq, Repr

/-- The sole entity: a contact row, as in the Prisma schema
(`id`, `email`, `phoneNumber`, `linkedId`, `linkPrecedence`,
`createdAt`, `deletedAt`; `updatedAt` is never read by the core and is
omitted). -/
structure Contact where
  id : Nat
  email : Option String
  phoneNumber : Option String
  linkedId : Option Nat
  linkPrecedence : LinkPrecedence
  createdAt : Nat
  deletedAt : Option Nat
deriving DecidableEq, Repr

abbrev Store := List Contact

/-- The logical request body: `{ email?, phoneNumber? }`. -/
structure IdentifyRequest where
  email : Option String
  phoneNumber : Option String
deriving DecidableEq, Repr

/-- JavaScript truthiness of an optional string: `undefined`, `null` and
`""` are falsy. -/
def present : Option String → Bool
  | none => false
  | some s => !(s == "")

/-- JavaScript strict equality between two optional strings as used in
`contact.email === email`: true only when both are strings and equal. -/
def jsEq (a b : Option String) : Bool :=
  match a, b with
  | some x, some y => x == y
  | _, _ => false

def isLive (c : Contact) : Bool := c.deletedAt == none

/-- The `where` clause of the first `findMany`: OR of the supplied
(truthy) attributes; an absent attribute contributes no condition. -/
def matchesQuery (q : IdentifyRequest) (c : Contact) : Bool :=
  (present q.email && jsEq c.email q.email) ||
  (present q.phoneNumber && jsEq c.phoneNumber q.phoneNumber)

/-- `matchingContacts`: all live records directly matching the request. -/
def matchingContacts (s : Store) (q : IdentifyRequest) : List Contact :=
  s.filter (fun c => matchesQuery q c && isLive c)

/-- `relatedPrimaryIds`: for each match, its own id when it is a primary,
otherwise its (truthy, hence nonzero) `linkedId`.  The source collects
these in a `Set`; only membership is ever used, so a list with possible
duplicates is an adequate model. -/
def relatedPrimaryIds (s : Store) (q : IdentifyRequest) : List Nat :=
  (matchingContacts s q).filterMap (fun c =>
    if c.linkPrecedence == LinkPrecedence.primary then some c.id
    else match c.linkedId with
      | some l => if l == 0 then none else some l
      | none => none)

/-- Lexicographic order on `(createdAt, id)`. -/
def keyLe (a b : Contact) : Bool :=
  decide (a.createdAt < b.createdAt) ||
    (a.createdAt == b.createdAt && decide (a.id ≤ b.id))

def insertSorted (c : Contact) : List Contact → List Contact
  | [] => [c]
  | d :: ds => if keyLe c d then c :: d :: ds else d :: insertSorted c ds

/-- Modelled from the spec: the store's ordered reads.  The Prisma store
is not under the sources; the query says `orderBy: { createdAt: "asc" }`
and the spec's store interface fixes the full order to `(createdAt, id)`
ascending, ties broken by ascending `id`.  Insertion sort by that
lexicographic key. -/
def sortContacts : List Contact → List Contact
  | [] => []
  | c :: cs => insertSorted c (sortContacts cs)

/-- The records returned by the second `findMany`
(`id ∈ relatedPrimaryIds`, live), before the declared sort. -/
def candidateRecords (s : Store) (q : IdentifyRequest) : List Contact :=
  s.filter (fun c => (relatedPrimaryIds s q).contains c.id && isLive c)

/-- `allPrimaryContacts`: candidate records in ascending
`(createdAt, id)` order. -/
def allPrimaryContacts (s : Store) (q : IdentifyRequest) : List Contact :=
  sortContacts (candidateRecords s q)

/-- `truePrimaryContact = allPrimaryContacts[0]`; `none` models the
`undefined` that the cast `as Contact` hides. -/
def truePrimaryContact (s : Store) (q : IdentifyRequest) : Option Contact :=
  (allPrimaryContacts s q).head?

/-- `otherPrimaryContactIds = allPrimaryContacts.slice(1).map(c => c.id)`. -/
def otherPrimaryContactIds (s : Store) (q : IdentifyRequest) : List Nat :=
  ((allPrimaryContacts s q).drop 1).map (·.id)

/-- SQL `linkedId IN (losers)`: false on a null `linkedId`. -/
def linkedIdIn (losers : List Nat) (c : Contact) : Bool :=
  match c.linkedId with
  | some l => losers.contains l
  | none => false

/-- The two `updateMany` patches of the merge, applied to one row.
The source issues them concurrently (`Promise.all`); the demote patch
(`id ∈ losers`) sets `linkedId` to the canonical id, which is not a
loser id, so both serialisations of the two updates yield this same
per-row result. -/
def mergePatch (canonicalId : Nat) (losers : List Nat) (c : Contact) : Contact :=
  if losers.contains c.id then
    { c with linkedId := some canonicalId,
             linkPrecedence := LinkPrecedence.secondary }
  else if linkedIdIn losers c then { c with linkedId := some canonicalId }
  else c

/-- The store after the (possible) merge: when there is at least one
loser, demote the losers and re-parent their children. -/
def mergedStore (s : Store) (q : IdentifyRequest) : Store :=
  match truePrimaryContact s q with
  | none => s
  | some t =>
      if (otherPrimaryContactIds s q).isEmpty then s
      else s.map (mergePatch t.id (otherPrimaryContactIds s q))

/-- The `where` clause of the third `findMany`: member of the canonical
primary's group (`id = primaryId` OR `linkedId = primaryId`), live. -/
def inGroup (primaryId : Nat) (c : Contact) : Bool :=
  (c.id == primaryId || c.linkedId == some primaryId) && isLive c

/-- `allRelatedContacts`: the resolved group, read after the merge,
in ascending `(createdAt, id)` order. -/
def allRelatedContacts (s : Store) (q : IdentifyRequest) : List Contact :=
  match truePrimaryContact s q with
  | none => []
  | some t => sortContacts ((mergedStore s q).filter (inGroup t.id))

/-- `hasNewEmail = email && !allRelatedContacts.some(c => c.email === email)`. -/
def hasNewEmail (g : List Contact) (q : IdentifyRequest) : Bool :=
  present q.email && !(g.any (fun c => jsEq c.email q.email))

def hasNewPhone (g : List Contact) (q : IdentifyRequest) : Bool :=
  present q.phoneNumber && !(g.any (fun c => jsEq c.phoneNumber q.phoneNumber))

/-- `combinationExists`: some group member strictly equals the query on
both attributes. -/
def combinationExists (g : List Contact) (q : IdentifyRequest) : Bool :=
  g.any (fun c => jsEq c.email q.email && jsEq c.phoneNumber q.phoneNumber)

/-- The gap-filler decision of the source: create a new secondary iff
`(hasNewEmail || hasNewPhone) && !combinationExists`. -/
def willCreateSecondary (g : List Contact) (q : IdentifyRequest) : Bool :=
  (hasNewEmail g q || hasNewPhone g q) && !(combinationExists g q)

def maxId (s : Store) : Nat := (s.map Contact.id).foldr max 0

def maxCreatedAt (s : Store) : Nat := (s.map Contact.createdAt).foldr max 0

/-- Modelled from the spec: the store assigns ids; they are unique and
monotonically assigned at creation (PostgreSQL autoincrement), so a
fresh id is strictly larger than every existing one. -/
def freshId (s : Store) : Nat := maxId s + 1

/-- Modelled from the spec: the store assigns `createdAt` at insertion
time (`now()`); a fresh record is created after every existing one. -/
def freshCreatedAt (s : Store) : Nat := maxCreatedAt s + 1

/-- The record built by `prisma.contact.create` on the no-match path. -/
def newPrimaryContact (s : Store) (q : IdentifyRequest) : Contact :=
  { id := freshId s, email := q.email, phoneNumber := q.phoneNumber,
    linkedId := none, linkPrecedence := LinkPrecedence.primary,
    createdAt := freshCreatedAt s, deletedAt := none }

/-- The record built by `prisma.contact.create` on the gap-filler path
(created against the post-merge store). -/
def newSecondaryContact (s : Store) (q : IdentifyRequest) (canonicalId : Nat) :
    Contact :=
  { id := freshId s, email := q.email, phoneNumber := q.phoneNumber,
    linkedId := some canonicalId, linkPrecedence := LinkPrecedence.secondary,
    createdAt := freshCreatedAt s, deletedAt := none }

/-- The list handed to `formatResponse` on the group path
(`allRelatedContacts`, plus the pushed new secondary when one was
created); `none` when `truePrimaryContact` is `undefined`. -/
def finalContactsList (s : Store) (q : IdentifyRequest) :
    Option (List Contact) :=
  match truePrimaryContact s q with
  | none => none
  | some t =>
      let g := allRelatedContacts s q
      if willCreateSecondary g q then
        some (g ++ [newSecondaryContact (mergedStore s q) q t.id])
      else some g

/-- The externally visible contact shape, with the field spelled exactly
as the source spells it (`primaryContatctId`, line 199 of the
controller). -/
structure FormattedContact where
  primaryContatctId : Nat
  emails : List String
  phoneNumbers : List String
  secondaryContactIds : List Nat
deriving DecidableEq, Repr

/-- `.filter(Boolean)` over `(string | null)[]`: drops `null` and `""`. -/
def filterBooleanStr (l : List (Option String)) : List String :=
  l.filterMap (fun v =>
    match v with
    | some str => if str = "" then none else some str
    | none => none)

def dedupFirstSeenAux (seen : List String) : List String → List String
  | [] => []
  | x :: xs =>
      if seen.contains x then dedupFirstSeenAux seen xs
      else x :: dedupFirstSeenAux (x :: seen) xs

/-- `[...new Set(xs)]`: deduplication keeping first occurrences, in
insertion order. -/
def dedupFirstSeen (l : List String) : List String := dedupFirstSeenAux [] l

/-- `formatResponse`: the projection of the final group list.  An empty
list makes the source dereference `undefined` (`allRelatedContacts[0]`),
modelled as `none`. -/
def formatResponse (l : List Contact) : Option FormattedContact :=
  match l with
  | [] => none
  | primaryContact :: _ =>
      let allEmails :=
        dedupFirstSeen (filterBooleanStr (l.map Contact.email))
      let allPhoneNumbers :=
        dedupFirstSeen (filterBooleanStr (l.map Contact.phoneNumber))
      let sortedEmails :=
        filterBooleanStr (primaryContact.email ::
          (allEmails.filter (fun e => !(some e == primaryContact.email))).map some)
      let sortedPhoneNumbers :=
        filterBooleanStr (primaryContact.phoneNumber ::
          (allPhoneNumbers.filter
            (fun p => !(some p == primaryContact.phoneNumber))).map some)
      let secondaryContactIds :=
        (l.filter (fun c => !(c.id == primaryContact.id))).map Contact.id
      some { primaryContatctId := primaryContact.id,
             emails := sortedEmails,
             phoneNumbers := sortedPhoneNumbers,
             secondaryContactIds := secondaryContactIds }

/-- A JSON value as it appears in the response's contact object. -/
inductive JsonValue where
  | num (n : Nat)
  | strArr (l : List String)
  | numArr (l : List Nat)
deriving DecidableEq, Repr

/-- The object literal returned by `formatResponse` (lines 197-204),
keys spelled exactly as in the source. -/
def contactObject (fc : FormattedContact) : List (String × JsonValue) :=
  [("primaryContatctId", JsonValue.num fc.primaryContatctId),
   ("emails", JsonValue.strArr fc.emails),
   ("phoneNumbers", JsonValue.strArr fc.phoneNumbers),
   ("secondaryContactIds", JsonValue.numArr fc.secondaryContactIds)]

/-- One store access, as counted for the error-handling claims. -/
inductive StoreOp where
  | read
  | create
  | update
deriving DecidableEq, Repr

inductive IdentifyResult where
  | validationError
  | internalError
  | ok (resp : FormattedContact)
deriving DecidableEq, Repr

/-- The observable outcome of one `identify` call: the HTTP-level result,
the store afterwards, and the store operations performed. -/
structure IdentifyOutcome where
  result : IdentifyResult
  store : Store
  ops : List StoreOp
deriving DecidableEq, Repr

/-- The store operations of the merge stage: the two `updateMany` calls,
issued only when there is at least one loser. -/
def mergeOps (s : Store) (q : IdentifyRequest) : List StoreOp :=
  if (otherPrimaryContactIds s q).isEmpty then []
  else [StoreOp.update, StoreOp.update]

/-- The group path of the controller (cases 2-4), once the canonical
primary `t` is resolved: merge already reflected in `mergedStore`, then
the gap-filler decision, then the projection. -/
def identifyGroup (s : Store) (q : IdentifyRequest) (t : Contact) :
    IdentifyOutcome :=
  if willCreateSecondary (allRelatedContacts s q) q then
    match formatResponse (allRelatedContacts s q ++
        [newSecondaryContact (mergedStore s q) q t.id]) with
    | some resp =>
        { result := IdentifyResult.ok resp,
          store := mergedStore s q ++
            [newSecondaryContact (mergedStore s q) q t.id],
          ops := [StoreOp.read, StoreOp.read] ++ mergeOps s q ++
            [StoreOp.read, StoreOp.create] }
    | none =>
        { result := IdentifyResult.internalError,
          store := mergedStore s q ++
            [newSecondaryContact (mergedStore s q) q t.id],
          ops := [StoreOp.read, StoreOp.read] ++ mergeOps s q ++
            [StoreOp.read, StoreOp.create] }
  else
    match formatResponse (allRelatedContacts s q) with
    | some resp =>
        { result := IdentifyResult.ok resp, store := mergedStore s q,
          ops := [StoreOp.read, StoreOp.read] ++ mergeOps s q ++
            [StoreOp.read] }
    | none =>
        { result := IdentifyResult.internalError,
          store := mergedStore s q,
          ops := [StoreOp.read, StoreOp.read] ++ mergeOps s q ++
            [StoreOp.read] }

/-- The `identify` controller.  `internalError` models a thrown
`TypeError` (dereferencing `undefined`) caught by the 500 handler. -/
def identify (s : Store) (q : IdentifyRequest) : IdentifyOutcome :=
  if !(present q.email) && !(present q.phoneNumber) then
    { result := IdentifyResult.validationError, store := s, ops := [] }
  else if (matchingContacts s q).isEmpty then
    match formatResponse [newPrimaryContact s q] with
    | some resp =>
        { result := IdentifyResult.ok resp,
          store := s ++ [newPrimaryContact s q],
          ops := [StoreOp.read, StoreOp.create] }
    | none =>
        { result := IdentifyResult.internalError,
          store := s ++ [newPrimaryContact s q],
          ops := [StoreOp.read, StoreOp.create] }
  else
    match truePrimaryContact s q with
    | none =>
        { result := IdentifyResult.internalError, store := s,
          ops := [StoreOp.read, StoreOp.read] }
    | some t => identifyGroup s q t

/-- The spec's flat-link store invariant (§3), scoped as the spec scopes
it to live records: ids are unique store-assigned positive serials, a
live primary carries no `linkedId`, and a live secondary's `linkedId`
references a live primary. -/
def StoreInv (s : Store) : Prop :=
  (s.map Contact.id).Nodup ∧
  (∀ c ∈ s, 0 < c.id) ∧
  (∀ c ∈ s, c.deletedAt = none → c.linkPrecedence = LinkPrecedence.primary →
    c.linkedId = none) ∧
  (∀ c ∈ s, c.deletedAt = none → c.linkPrecedence = LinkPrecedence.secondary →
    ∃ p ∈ s, c.linkedId = some p.id ∧ p.deletedAt = none ∧
      p.linkPrecedence = LinkPrecedence.primary)

/-- A well-formed request: at least one attribute present (non-empty). -/
def wellFormed (q : IdentifyRequest) : Prop :=
  present q.email = true ∨ present q.phoneNumber = true

instance (s : Store) : Decidable (StoreInv s) := by
  unfold StoreInv; infer_instance

instance (q : IdentifyRequest) : Decidable (wellFormed q) := by
  unfold wellFormed; infer_instance

/-! Concrete fixtures used by the witness theorems. -/

def wContactA : Contact :=
  { id := 1, email := some ("alice@x.com"), phoneNumber := some ("111"),
    linkedId := none, linkPrecedence := LinkPrecedence.primary,
    createdAt := 1, deletedAt := none }

def wContactB : Contact :=
  { id := 2, email := some ("bob@x.com"), phoneNumber := some ("222"),
    linkedId := none, linkPrecedence := LinkPrecedence.primary,
    createdAt := 2, deletedAt := none }

def wContactC : Contact :=
  { id := 3, email := some ("carol@x.com"), phoneNumber := some ("333"),
    linkedId := some 2, linkPrecedence := LinkPrecedence.secondary,
    createdAt := 3, deletedAt := none }

def wTieA : Contact :=
  { id := 4, email := some ("a2@x.com"), phoneNumber := some ("444"),
    linkedId := none, linkPrecedence := LinkPrecedence.primary,
    createdAt := 5, deletedAt := none }

def wTieB : Contact :=
  { id := 9, email := some ("b2@x.com"), phoneNumber := some ("999"),
    linkedId := none, linkPrecedence := LinkPrecedence.primary,
    createdAt := 5, deletedAt := none }

def wBridge : IdentifyRequest :=
  { email := some ("alice@x.com"), phoneNumber := some ("222") }

def wGap : IdentifyRequest :=
  { email := some ("alice@x.com"), phoneNumber := some ("222") }

def wExact : IdentifyRequest :=
  { email := some ("alice@x.com"), phoneNumber := some ("111") }

def wEmpty : IdentifyRequest := { email := some (""), phoneNumber := none }

def wTieQ : IdentifyRequest :=
  { email := some ("a2@x.com"), phoneNumber := some ("999") }

end IdentityRecon

namespace IdentityRecon

/-! ### Order and sorting lemmas -/

theorem keyLe_refl (a : Contact) : keyLe a a = true := by
  simp [keyLe]

theorem keyLe_total (a b : Contact) : keyLe a b = true ∨ keyLe b a = true := by
  simp only [keyLe, Bool.or_eq_true, Bool.and_eq_true, decide_eq_true_eq,
    beq_iff_eq]
  omega

theorem keyLe_trans {a b c : Contact} (h1 : keyLe a b = true)
    (h2 : keyLe b c = true) : keyLe a c = true := by
  simp only [keyLe, Bool.or_eq_true, Bool.and_eq_true, decide_eq_true_eq,
    beq_iff_eq] at h1 h2 ⊢
  omega

theorem mem_insertSorted {a c : Contact} {l : List Contact} :
    a ∈ insertSorted c l ↔ a = c ∨ a ∈ l := by
  induction l with
  | nil => simp [insertSorted]
  | cons d ds ih =>
      simp only [insertSorted]
      by_cases h : keyLe c d = true
      · rw [if_pos h]
        exact List.mem_cons
      · rw [if_neg h]
        simp only [List.mem_cons, ih]
        tauto

theorem insertSorted_perm (c : Contact) (l : List Contact) :
    List.Perm (insertSorted c l) (c :: l) := by
  induction l with
  | nil => simp [insertSorted]
  | cons d ds ih =>
      simp only [insertSorted]
      by_cases h : keyLe c d = true
      · rw [if_pos h]
      · rw [if_neg h]
        exact (ih.cons d).trans (List.Perm.swap c d ds)

theorem sortContacts_perm (l : List Contact) : List.Perm (sortContacts l) l := by
  induction l with
  | nil => simp [sortContacts]
  | cons c cs ih =>
      exact (insertSorted_perm c (sortContacts cs)).trans (ih.cons c)

theorem mem_sortContacts {a : Contact} {l : List Contact} :
    a ∈ sortContacts l ↔ a ∈ l :=
  (sortContacts_perm l).mem_iff

theorem pairwise_insertSorted {c : Contact} {l : List Contact}
    (h : l.Pairwise (fun a b => keyLe a b = true)) :
    (insertSorted c l).Pairwise (fun a b => keyLe a b = true) := by
  induction l with
  | nil => simp [insertSorted]
  | cons d ds ih =>
      rcases List.pairwise_cons.mp h with ⟨hd, hds⟩
      by_cases hk : keyLe c d = true
      · rw [insertSorted, if_pos hk]
        refine List.pairwise_cons.mpr ⟨?_, h⟩
        intro b hb
        rcases List.mem_cons.mp hb with rfl | hb'
        · exact hk
        · exact keyLe_trans hk (hd b hb')
      · rw [insertSorted, if_neg hk]
        refine List.pairwise_cons.mpr ⟨?_, ih hds⟩
        intro b hb
        rcases mem_insertSorted.mp hb with rfl | hb'
        · rcases keyLe_total b d with h' | h'
          · exact absurd h' hk
          · exact h'
        · exact hd b hb'

theorem sortContacts_pairwise (l : List Contact) :
    (sortContacts l).Pairwise (fun a b => keyLe a b = true) := by
  induction l with
  | nil => simp [sortContacts]
  | cons c cs ih => exact pairwise_insertSorted ih

theorem sortContacts_head_min {l : List Contact} {t : Contact}
    {rest : List Contact} (h : sortContacts l = t :: rest) :
    ∀ a ∈ l, keyLe t a = true := by
  intro a ha
  have ha' : a ∈ t :: rest := h ▸ mem_sortContacts.mpr ha
  rcases List.mem_cons.mp ha' with rfl | hr
  · exact keyLe_refl a
  · have hp := sortContacts_pairwise l
    rw [h] at hp
    exact (List.pairwise_cons.mp hp).1 a hr

/-! ### Generic store lemmas -/

theorem id_inj {s : Store} (h : (s.map Contact.id).Nodup) {a b : Contact}
    (ha : a ∈ s) (hb : b ∈ s) (hid : a.id = b.id) : a = b :=
  List.inj_on_of_nodup_map h ha hb hid

theorem le_maxId {s : Store} {c : Contact} (h : c ∈ s) : c.id ≤ maxId s := by
  induction s with
  | nil => cases h
  | cons d ds ih =>
      have hm : maxId (d :: ds) = max d.id (maxId ds) := rfl
      rw [hm]
      rcases List.mem_cons.mp h with rfl | h'
      · exact Nat.le_max_left _ _
      · exact Nat.le_trans (ih h') (Nat.le_max_right _ _)

theorem lt_freshId {s : Store} {c : Contact} (h : c ∈ s) : c.id < freshId s :=
  Nat.lt_succ_of_le (le_maxId h)

theorem filter_eq_singleton {s : Store} {t : Contact} {p : Contact → Bool}
    (hnd : (s.map Contact.id).Nodup) (ht : t ∈ s)
    (hp : ∀ c ∈ s, (p c = true ↔ c = t)) : s.filter p = [t] := by
  induction s with
  | nil => cases ht
  | cons d ds ih =>
      have hnd' : (ds.map Contact.id).Nodup := by
        have hsub : List.Sublist (ds.map Contact.id) ((d :: ds).map Contact.id) :=
          (List.sublist_cons_self d ds).map Contact.id
        exact hnd.sublist hsub
      rcases List.mem_cons.mp ht with rfl | ht'
      · have hpd : p t = true := (hp t (List.mem_cons_self t ds)).mpr rfl
        rw [List.filter_cons_of_pos hpd]
        have hnil : ds.filter p = [] := by
          rw [List.filter_eq_nil_iff]
          intro c hc hpc
          have hcd : c = t := (hp c (List.mem_cons_of_mem t hc)).mp hpc
          subst hcd
          have hdm : c.id ∈ ds.map Contact.id := List.mem_map_of_mem _ hc
          simp only [List.map_cons, List.nodup_cons] at hnd
          exact hnd.1 hdm
        rw [hnil]
      · have hpd : ¬ p d = true := by
          intro hpd
          have hdt : d = t := (hp d (List.mem_cons_self d ds)).mp hpd
          subst hdt
          have hdm : d.id ∈ ds.map Contact.id := List.mem_map_of_mem _ ht'
          simp only [List.map_cons, List.nodup_cons] at hnd
          exact hnd.1 hdm
        rw [List.filter_cons_of_neg hpd]
        exact ih hnd' ht' (fun c hc => hp c (List.mem_cons_of_mem d hc))

end IdentityRecon

namespace IdentityRecon

/-! ### Membership characterisations -/

theorem natContains_iff {l : List Nat} {a : Nat} :
    l.contains a = true ↔ a ∈ l := by
  induction l with
  | nil => simp
  | cons b bs ih =>
      simp only [List.contains_cons, Bool.or_eq_true, beq_iff_eq, ih,
        List.mem_cons]

theorem mem_matchingContacts {s : Store} {q : IdentifyRequest} {c : Contact} :
    c ∈ matchingContacts s q ↔
      c ∈ s ∧ matchesQuery q c = true ∧ c.deletedAt = none := by
  simp [matchingContacts, List.mem_filter, isLive, and_assoc]

theorem mem_candidateRecords {s : Store} {q : IdentifyRequest} {c : Contact} :
    c ∈ candidateRecords s q ↔
      c ∈ s ∧ c.id ∈ relatedPrimaryIds s q ∧ c.deletedAt = none := by
  simp [candidateRecords, List.mem_filter, isLive, natContains_iff, and_assoc]

/-! ### Behaviour of the merge patch -/

theorem linkedIdIn_some {ls : List Nat} {c : Contact} {l : Nat}
    (hl : c.linkedId = some l) : linkedIdIn ls c = ls.contains l := by
  simp [linkedIdIn, hl]

theorem linkedIdIn_none {ls : List Nat} {c : Contact}
    (hl : c.linkedId = none) : linkedIdIn ls c = false := by
  simp [linkedIdIn, hl]

theorem mergePatch_of_loser {cid : Nat} {ls : List Nat} {c : Contact}
    (h : ls.contains c.id = true) :
    mergePatch cid ls c =
      { c with linkedId := some cid,
               linkPrecedence := LinkPrecedence.secondary } := by
  unfold mergePatch
  rw [if_pos h]

theorem mergePatch_of_child {cid : Nat} {ls : List Nat} {c : Contact}
    (hid : ls.contains c.id = false) (hin : linkedIdIn ls c = true) :
    mergePatch cid ls c = { c with linkedId := some cid } := by
  unfold mergePatch
  rw [if_neg (by rw [hid]; exact Bool.false_ne_true), if_pos hin]

theorem mergePatch_of_fixed {cid : Nat} {ls : List Nat} {c : Contact}
    (hid : ls.contains c.id = false) (hin : linkedIdIn ls c = false) :
    mergePatch cid ls c = c := by
  unfold mergePatch
  rw [if_neg (by rw [hid]; exact Bool.false_ne_true),
    if_neg (by rw [hin]; exact Bool.false_ne_true)]

theorem mergePatch_nil (cid : Nat) (c : Contact) : mergePatch cid [] c = c := by
  cases hl : c.linkedId with
  | none => exact mergePatch_of_fixed rfl (linkedIdIn_none hl)
  | some l => exact mergePatch_of_fixed rfl ((linkedIdIn_some hl).trans rfl)

theorem mergePatch_id (cid : Nat) (ls : List Nat) (c : Contact) :
    (mergePatch cid ls c).id = c.id := by
  unfold mergePatch
  split
  · rfl
  · split <;> rfl

theorem mergePatch_email (cid : Nat) (ls : List Nat) (c : Contact) :
    (mergePatch cid ls c).email = c.email := by
  unfold mergePatch
  split
  · rfl
  · split <;> rfl

theorem mergePatch_phoneNumber (cid : Nat) (ls : List Nat) (c : Contact) :
    (mergePatch cid ls c).phoneNumber = c.phoneNumber := by
  unfold mergePatch
  split
  · rfl
  · split <;> rfl

theorem mergePatch_createdAt (cid : Nat) (ls : List Nat) (c : Contact) :
    (mergePatch cid ls c).createdAt = c.createdAt := by
  unfold mergePatch
  split
  · rfl
  · split <;> rfl

theorem mergePatch_deletedAt (cid : Nat) (ls : List Nat) (c : Contact) :
    (mergePatch cid ls c).deletedAt = c.deletedAt := by
  unfold mergePatch
  split
  · rfl
  · split <;> rfl

/-- With a resolved canonical primary, the post-merge store is uniformly
`map (mergePatch canonical.id losers)` (the zero-loser branch changes
nothing, and the patch with no losers is the identity). -/
theorem mergedStore_eq_map {s : Store} {q : IdentifyRequest} {t : Contact}
    (h : truePrimaryContact s q = some t) :
    mergedStore s q =
      s.map (mergePatch t.id (otherPrimaryContactIds s q)) := by
  unfold mergedStore
  rw [h]
  show (if (otherPrimaryContactIds s q).isEmpty then s
        else s.map (mergePatch t.id (otherPrimaryContactIds s q))) = _
  by_cases he : (otherPrimaryContactIds s q).isEmpty = true
  · rw [if_pos he]
    have hnil : otherPrimaryContactIds s q = [] := List.isEmpty_iff.mp he
    rw [hnil]
    exact (List.map_id'' (mergePatch_nil t.id) s).symm
  · rw [if_neg he]

theorem merged_map_id {s : Store} {q : IdentifyRequest} :
    (mergedStore s q).map Contact.id = s.map Contact.id := by
  cases h : truePrimaryContact s q with
  | none => unfold mergedStore; rw [h]
  | some t =>
      rw [mergedStore_eq_map h, List.map_map]
      exact List.map_congr_left (fun c _ => mergePatch_id _ _ c)

/-! ### Candidate analysis under the store invariant -/

theorem bool_eq_false {b : Bool} (h : ¬ b = true) : b = false := by
  cases b
  · rfl
  · exact absurd rfl h

theorem rpids_spec {s : Store} {q : IdentifyRequest} {j : Nat}
    (hinv : StoreInv s) (hj : j ∈ relatedPrimaryIds s q) :
    ∃ p ∈ s, p.id = j ∧ p.deletedAt = none ∧
      p.linkPrecedence = LinkPrecedence.primary := by
  obtain ⟨hnd, hpos, hprim, hsec⟩ := hinv
  rcases List.mem_filterMap.mp hj with ⟨c, hc, hcj⟩
  rcases mem_matchingContacts.mp hc with ⟨hcs, hq, hlive⟩
  by_cases hcp : c.linkPrecedence = LinkPrecedence.primary
  · rw [if_pos (by rw [beq_iff_eq]; exact hcp)] at hcj
    exact ⟨c, hcs, Option.some.inj hcj, hlive, hcp⟩
  · have hcsec : c.linkPrecedence = LinkPrecedence.secondary := by
      cases hcl : c.linkPrecedence
      · exact absurd hcl hcp
      · rfl
    rcases hsec c hcs hlive hcsec with ⟨p, hps, hpl, hplive, hpp⟩
    rw [if_neg (by rw [beq_iff_eq]; exact hcp)] at hcj
    simp only [hpl] at hcj
    have hne : p.id ≠ 0 := Nat.pos_iff_ne_zero.mp (hpos p hps)
    rw [if_neg (by rw [beq_iff_eq]; exact hne)] at hcj
    exact ⟨p, hps, Option.some.inj hcj, hplive, hpp⟩

theorem candidate_spec {s : Store} {q : IdentifyRequest} (hinv : StoreInv s)
    {c : Contact} (hc : c ∈ candidateRecords s q) :
    c ∈ s ∧ c.deletedAt = none ∧
      c.linkPrecedence = LinkPrecedence.primary ∧ c.linkedId = none := by
  rcases mem_candidateRecords.mp hc with ⟨hcs, hid, hlive⟩
  rcases rpids_spec hinv hid with ⟨p, hps, hpid, hplive, hpp⟩
  have hpc : p = c := id_inj hinv.1 hps hcs hpid
  subst hpc
  exact ⟨hps, hlive, hpp, hinv.2.2.1 p hps hlive hpp⟩

theorem truePrimary_mem_candidates {s : Store} {q : IdentifyRequest}
    {t : Contact} (h : truePrimaryContact s q = some t) :
    t ∈ candidateRecords s q :=
  mem_sortContacts.mp (List.mem_of_mem_head? (Option.mem_def.mpr h))

theorem allPrimary_decomp {s : Store} {q : IdentifyRequest} {t : Contact}
    (h : truePrimaryContact s q = some t) :
    ∃ rest, allPrimaryContacts s q = t :: rest :=
  List.head?_eq_some_iff.mp h

theorem apc_ids_nodup {s : Store} (q : IdentifyRequest)
    (hnd : (s.map Contact.id).Nodup) :
    ((allPrimaryContacts s q).map Contact.id).Nodup := by
  have h1 : ((candidateRecords s q).map Contact.id).Nodup :=
    hnd.sublist ((List.filter_sublist s).map Contact.id)
  exact ((sortContacts_perm (candidateRecords s q)).map Contact.id).symm.nodup h1

theorem truePrimary_not_loser {s : Store} {q : IdentifyRequest} {t : Contact}
    (hnd : (s.map Contact.id).Nodup) (h : truePrimaryContact s q = some t) :
    (otherPrimaryContactIds s q).contains t.id = false := by
  rcases allPrimary_decomp h with ⟨rest, hr⟩
  have hids := apc_ids_nodup q hnd
  rw [hr, List.map_cons, List.nodup_cons] at hids
  have heq : otherPrimaryContactIds s q = rest.map Contact.id := by
    unfold otherPrimaryContactIds
    rw [hr]
    rfl
  rw [heq]
  cases hcb : (rest.map Contact.id).contains t.id
  · rfl
  · exact absurd (natContains_iff.mp hcb) hids.1

theorem losers_spec {s : Store} {q : IdentifyRequest} {t : Contact} {j : Nat}
    (h : truePrimaryContact s q = some t)
    (hj : j ∈ otherPrimaryContactIds s q) :
    ∃ c ∈ candidateRecords s q, c.id = j := by
  rcases allPrimary_decomp h with ⟨rest, hr⟩
  unfold otherPrimaryContactIds at hj
  rw [hr] at hj
  rcases List.mem_map.mp hj with ⟨c, hcr, rfl⟩
  have hm : c ∈ allPrimaryContacts s q := by
    rw [hr]
    exact List.mem_cons_of_mem t hcr
  exact ⟨c, mem_sortContacts.mp hm, rfl⟩

theorem rpids_of_matched_primary {s : Store} {q : IdentifyRequest}
    {c : Contact} (hc : c ∈ matchingContacts s q)
    (hp : c.linkPrecedence = LinkPrecedence.primary) :
    c.id ∈ relatedPrimaryIds s q := by
  apply List.mem_filterMap.mpr
  exact ⟨c, hc, by rw [if_pos (by rw [beq_iff_eq]; exact hp)]⟩

theorem rpids_of_matched_secondary {s : Store} {q : IdentifyRequest}
    {c : Contact} {l : Nat} (hc : c ∈ matchingContacts s q)
    (hp : c.linkPrecedence = LinkPrecedence.secondary)
    (hl : c.linkedId = some l) (hl0 : l ≠ 0) :
    l ∈ relatedPrimaryIds s q := by
  apply List.mem_filterMap.mpr
  refine ⟨c, hc, ?_⟩
  rw [if_neg (by rw [beq_iff_eq, hp]; intro hx; cases hx)]
  simp only [hl]
  rw [if_neg (by rw [beq_iff_eq]; exact hl0)]

theorem truePrimary_spec {s : Store} {q : IdentifyRequest} {t : Contact}
    (hinv : StoreInv s) (h : truePrimaryContact s q = some t) :
    t ∈ s ∧ t.deletedAt = none ∧
      t.linkPrecedence = LinkPrecedence.primary ∧ t.linkedId = none ∧
      (otherPrimaryContactIds s q).contains t.id = false := by
  rcases candidate_spec hinv (truePrimary_mem_candidates h) with
    ⟨hmem, hlive, hp, hlid⟩
  exact ⟨hmem, hlive, hp, hlid, truePrimary_not_loser hinv.1 h⟩

theorem truePrimary_patch_fixed {s : Store} {q : IdentifyRequest} {t : Contact}
    (hinv : StoreInv s) (h : truePrimaryContact s q = some t) :
    mergePatch t.id (otherPrimaryContactIds s q) t = t := by
  rcases truePrimary_spec hinv h with ⟨-, -, -, hlid, hnl⟩
  exact mergePatch_of_fixed hnl (linkedIdIn_none hlid)

theorem truePrimary_mem_merged {s : Store} {q : IdentifyRequest} {t : Contact}
    (hinv : StoreInv s) (h : truePrimaryContact s q = some t) :
    t ∈ mergedStore s q := by
  rw [mergedStore_eq_map h]
  have hm := List.mem_map_of_mem
    (mergePatch t.id (otherPrimaryContactIds s q)) (truePrimary_spec hinv h).1
  rwa [truePrimary_patch_fixed hinv h] at hm

/-- Every matched record ends up, after the merge patch, either being the
canonical primary itself or being a secondary that points at it. -/
theorem matched_patch_cases {s : Store} {q : IdentifyRequest} {t c : Contact}
    (hinv : StoreInv s) (h : truePrimaryContact s q = some t)
    (hc : c ∈ matchingContacts s q) :
    mergePatch t.id (otherPrimaryContactIds s q) c = t ∨
      ((mergePatch t.id (otherPrimaryContactIds s q) c).linkPrecedence =
          LinkPrecedence.secondary ∧
        (mergePatch t.id (otherPrimaryContactIds s q) c).linkedId =
          some t.id) := by
  rcases mem_matchingContacts.mp hc with ⟨hcs, hq, hlive⟩
  by_cases hloser : (otherPrimaryContactIds s q).contains c.id = true
  · right
    rw [mergePatch_of_loser hloser]
    exact ⟨rfl, rfl⟩
  · have hlf := bool_eq_false hloser
    cases hcp : c.linkPrecedence with
    | primary =>
        have hid : c.id ∈ relatedPrimaryIds s q :=
          rpids_of_matched_primary hc hcp
        have hcand : c ∈ candidateRecords s q :=
          mem_candidateRecords.mpr ⟨hcs, hid, hlive⟩
        have hcapc : c ∈ allPrimaryContacts s q := mem_sortContacts.mpr hcand
        rcases allPrimary_decomp h with ⟨rest, hr⟩
        rw [hr] at hcapc
        rcases List.mem_cons.mp hcapc with rfl | hrest
        · left
          exact truePrimary_patch_fixed hinv h
        · exfalso
          apply hloser
          rw [natContains_iff]
          unfold otherPrimaryContactIds
          rw [hr]
          exact List.mem_map_of_mem _ hrest
    | secondary =>
        rcases hinv.2.2.2 c hcs hlive hcp with ⟨p, hps, hpl, hplive, hpp⟩
        by_cases hpls : (otherPrimaryContactIds s q).contains p.id = true
        · right
          have hin : linkedIdIn (otherPrimaryContactIds s q) c = true := by
            rw [linkedIdIn_some hpl]
            exact hpls
          rw [mergePatch_of_child hlf hin]
          exact ⟨hcp, rfl⟩
        · have hp0 : p.id ≠ 0 := Nat.pos_iff_ne_zero.mp (hinv.2.1 p hps)
          have hidp : p.id ∈ relatedPrimaryIds s q :=
            rpids_of_matched_secondary hc hcp hpl hp0
          have hcand : p ∈ candidateRecords s q :=
            mem_candidateRecords.mpr ⟨hps, hidp, hplive⟩
          have hpapc : p ∈ allPrimaryContacts s q := mem_sortContacts.mpr hcand
          rcases allPrimary_decomp h with ⟨rest, hr⟩
          rw [hr] at hpapc
          rcases List.mem_cons.mp hpapc with rfl | hrest
          · right
            have hfix := @mergePatch_of_fixed p.id
              (otherPrimaryContactIds s q) c hlf
              (by rw [linkedIdIn_some hpl]; exact bool_eq_false hpls)
            rw [hfix]
            exact ⟨hcp, hpl⟩
          · exfalso
            apply hpls
            rw [natContains_iff]
            unfold otherPrimaryContactIds
            rw [hr]
            exact List.mem_map_of_mem _ hrest

/-! ### Invariant preservation -/

theorem StoreInv_merged {s : Store} {q : IdentifyRequest}
    (hinv : StoreInv s) : StoreInv (mergedStore s q) := by
  cases h : truePrimaryContact s q with
  | none =>
      unfold mergedStore
      rw [h]
      exact hinv
  | some t =>
      have hts := truePrimary_spec hinv h
      have htm : t ∈ s.map (mergePatch t.id (otherPrimaryContactIds s q)) := by
        have hmm := truePrimary_mem_merged hinv h
        rwa [mergedStore_eq_map h] at hmm
      obtain ⟨hnd, hpos, hprim, hsec⟩ := id hinv
      rw [mergedStore_eq_map h]
      refine ⟨?_, ?_, ?_, ?_⟩
      · have hmapeq :
            (s.map (mergePatch t.id (otherPrimaryContactIds s q))).map Contact.id =
              s.map Contact.id := by
          rw [List.map_map]
          exact List.map_congr_left
            (fun c _ => mergePatch_id t.id (otherPrimaryContactIds s q) c)
        rw [hmapeq]
        exact hnd
      · intro c' hc'
        rcases List.mem_map.mp hc' with ⟨c, hcs, rfl⟩
        rw [mergePatch_id]
        exact hpos c hcs
      · intro c' hc' hlive' hprim'
        rcases List.mem_map.mp hc' with ⟨c, hcs, rfl⟩
        by_cases hloser : (otherPrimaryContactIds s q).contains c.id = true
        · rw [mergePatch_of_loser hloser] at hprim'
          simp at hprim'
        · have hlf := bool_eq_false hloser
          cases hl : c.linkedId with
          | none =>
              have hfx := @mergePatch_of_fixed t.id
                (otherPrimaryContactIds s q) c hlf (linkedIdIn_none hl)
              rw [hfx]
              exact hl
          | some l =>
              by_cases hml : (otherPrimaryContactIds s q).contains l = true
              · have hre := @mergePatch_of_child t.id
                  (otherPrimaryContactIds s q) c hlf
                  (by rw [linkedIdIn_some hl]; exact hml)
                rw [hre] at hlive' hprim'
                have hnone := hprim c hcs hlive' hprim'
                rw [hnone] at hl
                cases hl
              · have hfx := @mergePatch_of_fixed t.id
                  (otherPrimaryContactIds s q) c hlf
                  (by rw [linkedIdIn_some hl]; exact bool_eq_false hml)
                rw [hfx] at hlive' hprim' ⊢
                exact hprim c hcs hlive' hprim'
      · intro c' hc' hlive' hsec'
        rcases List.mem_map.mp hc' with ⟨c, hcs, rfl⟩
        by_cases hloser : (otherPrimaryContactIds s q).contains c.id = true
        · rw [mergePatch_of_loser hloser]
          exact ⟨t, htm, rfl, hts.2.1, hts.2.2.1⟩
        · have hlf := bool_eq_false hloser
          cases hl : c.linkedId with
          | none =>
              have hfx := @mergePatch_of_fixed t.id
                (otherPrimaryContactIds s q) c hlf (linkedIdIn_none hl)
              rw [hfx] at hlive' hsec' ⊢
              rcases hsec c hcs hlive' hsec' with ⟨p, hps, hpl, hplive, hpp⟩
              rw [hl] at hpl
              cases hpl
          | some l =>
              by_cases hml : (otherPrimaryContactIds s q).contains l = true
              · have hre := @mergePatch_of_child t.id
                  (otherPrimaryContactIds s q) c hlf
                  (by rw [linkedIdIn_some hl]; exact hml)
                rw [hre]
                exact ⟨t, htm, rfl, hts.2.1, hts.2.2.1⟩
              · have hfx := @mergePatch_of_fixed t.id
                  (otherPrimaryContactIds s q) c hlf
                  (by rw [linkedIdIn_some hl]; exact bool_eq_false hml)
                rw [hfx] at hlive' hsec' ⊢
                rcases hsec c hcs hlive' hsec' with ⟨p, hps, hpl, hplive, hpp⟩
                have hpid : p.id = l := by
                  rw [hl] at hpl
                  exact (Option.some.inj hpl).symm
                have hplf : (otherPrimaryContactIds s q).contains p.id = false := by
                  rw [hpid]
                  exact bool_eq_false hml
                have hplid : p.linkedId = none := hprim p hps hplive hpp
                have hpfx := @mergePatch_of_fixed t.id
                  (otherPrimaryContactIds s q) p hplf (linkedIdIn_none hplid)
                have hpm : p ∈ s.map (mergePatch t.id (otherPrimaryContactIds s q)) := by
                  have hmm := List.mem_map_of_mem
                    (mergePatch t.id (otherPrimaryContactIds s q)) hps
                  rwa [hpfx] at hmm
                exact ⟨p, hpm, hpl, hplive, hpp⟩

theorem StoreInv_append_secondary {s : Store} {q : IdentifyRequest}
    {t : Contact} (hinv : StoreInv s) (ht : t ∈ s)
    (hlive : t.deletedAt = none)
    (hp : t.linkPrecedence = LinkPrecedence.primary) :
    StoreInv (s ++ [newSecondaryContact s q t.id]) := by
  obtain ⟨hnd, hpos, hprim, hsec⟩ := hinv
  refine ⟨?_, ?_, ?_, ?_⟩
  · rw [List.map_append]
    rw [List.nodup_append]
    refine ⟨hnd, List.nodup_singleton _, ?_⟩
    intro a ha hb
    rcases List.mem_map.mp ha with ⟨c, hcs, rfl⟩
    have hlt := lt_freshId hcs
    have hae : c.id = freshId s := by
      simpa [newSecondaryContact] using hb
    omega
  · intro c hc
    rcases List.mem_append.mp hc with hc | hc
    · exact hpos c hc
    · have hce : c = newSecondaryContact s q t.id := by simpa using hc
      subst hce
      show 0 < freshId s
      unfold freshId
      omega
  · intro c hc hclive hcp
    rcases List.mem_append.mp hc with hc | hc
    · exact hprim c hc hclive hcp
    · have hce : c = newSecondaryContact s q t.id := by simpa using hc
      subst hce
      simp [newSecondaryContact] at hcp
  · intro c hc hclive hcs
    rcases List.mem_append.mp hc with hc | hc
    · rcases hsec c hc hclive hcs with ⟨p, hps, hpl, hplive, hpp⟩
      exact ⟨p, List.mem_append_left _ hps, hpl, hplive, hpp⟩
    · have hce : c = newSecondaryContact s q t.id := by simpa using hc
      subst hce
      exact ⟨t, List.mem_append_left _ ht, rfl, hlive, hp⟩

/-! ### Group membership -/

theorem truePrimary_inGroup {t : Contact} (hlive : t.deletedAt = none) :
    inGroup t.id t = true := by
  simp [inGroup, isLive, hlive]

theorem truePrimary_mem_group {s : Store} {q : IdentifyRequest} {t : Contact}
    (hinv : StoreInv s) (h : truePrimaryContact s q = some t) :
    t ∈ allRelatedContacts s q := by
  unfold allRelatedContacts
  rw [h]
  show t ∈ sortContacts ((mergedStore s q).filter (inGroup t.id))
  rw [mem_sortContacts]
  exact List.mem_filter.mpr ⟨truePrimary_mem_merged hinv h,
    truePrimary_inGroup (truePrimary_spec hinv h).2.1⟩

theorem group_ne_nil {s : Store} {q : IdentifyRequest} {t : Contact}
    (hinv : StoreInv s) (h : truePrimaryContact s q = some t) :
    allRelatedContacts s q ≠ [] :=
  List.ne_nil_of_mem (truePrimary_mem_group hinv h)

theorem truePrimary_isSome {s : Store} {q : IdentifyRequest}
    (hinv : StoreInv s) (hm : matchingContacts s q ≠ []) :
    ∃ t, truePrimaryContact s q = some t := by
  rcases List.exists_mem_of_ne_nil _ hm with ⟨c, hc⟩
  rcases mem_matchingContacts.mp hc with ⟨hcs, hq, hlive⟩
  have hex : ∃ j, j ∈ relatedPrimaryIds s q := by
    cases hcp : c.linkPrecedence with
    | primary => exact ⟨c.id, rpids_of_matched_primary hc hcp⟩
    | secondary =>
        rcases hinv.2.2.2 c hcs hlive hcp with ⟨p, hps, hpl, _, _⟩
        exact ⟨p.id, rpids_of_matched_secondary hc hcp hpl
          (Nat.pos_iff_ne_zero.mp (hinv.2.1 p hps))⟩
  rcases hex with ⟨j, hj⟩
  rcases rpids_spec hinv hj with ⟨p, hps, hpid, hplive, hpp⟩
  have hpc : p ∈ candidateRecords s q :=
    mem_candidateRecords.mpr ⟨hps, by rw [hpid]; exact hj, hplive⟩
  have hpm : p ∈ allPrimaryContacts s q := mem_sortContacts.mpr hpc
  cases hl : allPrimaryContacts s q with
  | nil =>
      rw [hl] at hpm
      cases hpm
  | cons a r => exact ⟨a, by unfold truePrimaryContact; rw [hl]; rfl⟩

/-! ### Controller unfolding lemmas -/

theorem valid_cond_false {q : IdentifyRequest} (hwf : wellFormed q) :
    (!(present q.email) && !(present q.phoneNumber)) = false := by
  rcases hwf with h | h <;> simp [h]

theorem identify_invalid {s : Store} {q : IdentifyRequest}
    (he : present q.email = false) (hp : present q.phoneNumber = false) :
    identify s q =
      { result := IdentifyResult.validationError, store := s, ops := [] } := by
  unfold identify
  rw [he, hp]
  rfl

theorem filterBooleanStr_some {e : String} (he : ¬ e = "")
    (rest : List (Option String)) :
    filterBooleanStr (some e :: rest) = e :: filterBooleanStr rest := by
  simp only [filterBooleanStr, List.filterMap_cons]
  rw [if_neg he]

/-- `formatResponse` seen as taking each record list apart: on a cons
cell it always produces the object literal of the source. -/
theorem formatResponse_cons (c : Contact) (rest : List Contact) :
    formatResponse (c :: rest) = some
      { primaryContatctId := c.id,
        emails := filterBooleanStr (c.email ::
          ((dedupFirstSeen (filterBooleanStr
            ((c :: rest).map Contact.email))).filter
              (fun e => !(some e == c.email))).map some),
        phoneNumbers := filterBooleanStr (c.phoneNumber ::
          ((dedupFirstSeen (filterBooleanStr
            ((c :: rest).map Contact.phoneNumber))).filter
              (fun p => !(some p == c.phoneNumber))).map some),
        secondaryContactIds :=
          ((c :: rest).filter (fun d => !(d.id == c.id))).map Contact.id } :=
  rfl

theorem formatResponse_fb (v : Option String) :
    filterBooleanStr (v ::
      ((dedupFirstSeen (filterBooleanStr [v])).filter
        (fun e => !(some e == v))).map some) = filterBooleanStr [v] := by
  cases v with
  | none => rfl
  | some e =>
      by_cases he : e = ""
      · subst he
        rfl
      · have h1 : filterBooleanStr [some e] = [e] := filterBooleanStr_some he []
        rw [h1]
        have h2 : dedupFirstSeen [e] = [e] := rfl
        rw [h2]
        have h3 : (([e].filter (fun x => !(some x == some e))).map some) =
            ([] : List (Option String)) := by
          simp
        rw [h3]
        exact filterBooleanStr_some he []

theorem formatResponse_singleton (c : Contact) :
    formatResponse [c] = some
      { primaryContatctId := c.id,
        emails := filterBooleanStr [c.email],
        phoneNumbers := filterBooleanStr [c.phoneNumber],
        secondaryContactIds := [] } := by
  have hsec : ([c].filter (fun d => !(d.id == c.id))).map Contact.id = [] := by
    simp
  rw [formatResponse_cons]
  rw [show [c].map Contact.email = [c.email] from rfl,
    show [c].map Contact.phoneNumber = [c.phoneNumber] from rfl,
    formatResponse_fb c.email, formatResponse_fb c.phoneNumber, hsec]

theorem formatResponse_isSome {l : List Contact} (h : l ≠ []) :
    ∃ fc, formatResponse l = some fc := by
  cases l with
  | nil => exact absurd rfl h
  | cons c rest => exact ⟨_, rfl⟩

theorem matching_eq_nil {s : Store} {q : IdentifyRequest}
    (h : ∀ c ∈ s, c.deletedAt = none → matchesQuery q c = false) :
    matchingContacts s q = [] := by
  rw [matchingContacts, List.filter_eq_nil_iff]
  intro c hc hpc
  rcases Bool.and_eq_true_iff.mp hpc with ⟨h1, h2⟩
  have hd : c.deletedAt = none := by simpa [isLive] using h2
  rw [h c hc hd] at h1
  cases h1

theorem identify_noMatch {s : Store} {q : IdentifyRequest}
    (hwf : wellFormed q) (hnil : matchingContacts s q = []) :
    identify s q =
      { result := IdentifyResult.ok
          { primaryContatctId := freshId s,
            emails := filterBooleanStr [q.email],
            phoneNumbers := filterBooleanStr [q.phoneNumber],
            secondaryContactIds := [] },
        store := s ++ [newPrimaryContact s q],
        ops := [StoreOp.read, StoreOp.create] } := by
  unfold identify
  rw [valid_cond_false hwf, if_neg Bool.false_ne_true,
    if_pos (by rw [hnil]; rfl), formatResponse_singleton]
  rfl

theorem identify_eq_group {s : Store} {q : IdentifyRequest} {t : Contact}
    (hwf : wellFormed q) (hne : matchingContacts s q ≠ [])
    (h : truePrimaryContact s q = some t) :
    identify s q = identifyGroup s q t := by
  unfold identify
  rw [valid_cond_false hwf, if_neg Bool.false_ne_true,
    if_neg (fun hx => hne (List.isEmpty_iff.mp hx)), h]

theorem identifyGroup_create {s : Store} {q : IdentifyRequest} {t : Contact}
    (hcr : willCreateSecondary (allRelatedContacts s q) q = true) :
    (identifyGroup s q t).store = mergedStore s q ++
        [newSecondaryContact (mergedStore s q) q t.id] ∧
      (identifyGroup s q t).ops =
        [StoreOp.read, StoreOp.read] ++ mergeOps s q ++
          [StoreOp.read, StoreOp.create] := by
  unfold identifyGroup
  rw [if_pos hcr]
  cases hfr : formatResponse (allRelatedContacts s q ++
      [newSecondaryContact (mergedStore s q) q t.id]) <;> exact ⟨rfl, rfl⟩

theorem identifyGroup_create_result {s : Store} {q : IdentifyRequest}
    {t : Contact} {resp : FormattedContact}
    (hcr : willCreateSecondary (allRelatedContacts s q) q = true)
    (hfr : formatResponse (allRelatedContacts s q ++
        [newSecondaryContact (mergedStore s q) q t.id]) = some resp) :
    (identifyGroup s q t).result = IdentifyResult.ok resp := by
  unfold identifyGroup
  rw [if_pos hcr, hfr]

theorem identifyGroup_nocreate {s : Store} {q : IdentifyRequest} {t : Contact}
    {resp : FormattedContact}
    (hcr : willCreateSecondary (allRelatedContacts s q) q = false)
    (hfr : formatResponse (allRelatedContacts s q) = some resp) :
    identifyGroup s q t =
      { result := IdentifyResult.ok resp, store := mergedStore s q,
        ops := [StoreOp.read, StoreOp.read] ++ mergeOps s q ++
          [StoreOp.read] } := by
  unfold identifyGroup
  rw [if_neg (by rw [hcr]; exact Bool.false_ne_true), hfr]

/-! ### The gap-filler decision -/

theorem jsEq_some_iff {a : Option String} {e : String} :
    jsEq a (some e) = true ↔ a = some e := by
  cases a <;> simp [jsEq]

theorem jsEq_eq {a b : Option String} (h : jsEq a b = true) : a = b := by
  cases a <;> cases b <;> simp [jsEq] at h ⊢
  exact h

theorem combination_false_of_hasNewEmail {g : List Contact}
    {q : IdentifyRequest} (h : hasNewEmail g q = true) :
    combinationExists g q = false := by
  rcases Bool.and_eq_true_iff.mp h with ⟨hp, hn⟩
  have hany : g.any (fun c => jsEq c.email q.email) = false := by
    cases hx : g.any (fun c => jsEq c.email q.email)
    · rfl
    · rw [hx] at hn
      cases hn
  apply List.any_eq_false.mpr
  intro c hc hb
  rcases Bool.and_eq_true_iff.mp hb with ⟨h1, -⟩
  exact (List.any_eq_false.mp hany c hc) h1

theorem combination_false_of_hasNewPhone {g : List Contact}
    {q : IdentifyRequest} (h : hasNewPhone g q = true) :
    combinationExists g q = false := by
  rcases Bool.and_eq_true_iff.mp h with ⟨hp, hn⟩
  have hany : g.any (fun c => jsEq c.phoneNumber q.phoneNumber) = false := by
    cases hx : g.any (fun c => jsEq c.phoneNumber q.phoneNumber)
    · rfl
    · rw [hx] at hn
      cases hn
  apply List.any_eq_false.mpr
  intro c hc hb
  rcases Bool.and_eq_true_iff.mp hb with ⟨-, h2⟩
  exact (List.any_eq_false.mp hany c hc) h2

/-- The `combinationExists` guard is redundant: whenever the gap test
fires, no group member can carry the full pair. -/
theorem willCreate_eq_hasNew (g : List Contact) (q : IdentifyRequest) :
    willCreateSecondary g q = (hasNewEmail g q || hasNewPhone g q) := by
  unfold willCreateSecondary
  cases hh : (hasNewEmail g q || hasNewPhone g q)
  · rw [Bool.false_and]
  · have hcf : combinationExists g q = false := by
      rcases Bool.or_eq_true_iff.mp hh with h | h
      · exact combination_false_of_hasNewEmail h
      · exact combination_false_of_hasNewPhone h
    rw [hcf]
    rfl

theorem hasNewEmail_iff {g : List Contact} {q : IdentifyRequest} :
    hasNewEmail g q = true ↔
      present q.email = true ∧ ∀ c ∈ g, c.email ≠ q.email := by
  unfold hasNewEmail
  cases hqe : q.email with
  | none => simp [present]
  | some e =>
      rw [Bool.and_eq_true_iff]
      apply and_congr Iff.rfl
      constructor
      · intro hn c hc hce
        have hf : g.any (fun c => jsEq c.email (some e)) = false := by
          cases hx : g.any (fun c => jsEq c.email (some e))
          · rfl
          · rw [hx] at hn
            cases hn
        exact (List.any_eq_false.mp hf) c hc (jsEq_some_iff.mpr hce)
      · intro hn
        have hf : g.any (fun c => jsEq c.email (some e)) = false :=
          List.any_eq_false.mpr (fun c hc hj => hn c hc (jsEq_some_iff.mp hj))
        rw [hf]
        rfl

theorem hasNewPhone_iff {g : List Contact} {q : IdentifyRequest} :
    hasNewPhone g q = true ↔
      present q.phoneNumber = true ∧
        ∀ c ∈ g, c.phoneNumber ≠ q.phoneNumber := by
  unfold hasNewPhone
  cases hqp : q.phoneNumber with
  | none => simp [present]
  | some e =>
      rw [Bool.and_eq_true_iff]
      apply and_congr Iff.rfl
      constructor
      · intro hn c hc hce
        have hf : g.any (fun c => jsEq c.phoneNumber (some e)) = false := by
          cases hx : g.any (fun c => jsEq c.phoneNumber (some e))
          · rfl
          · rw [hx] at hn
            cases hn
        exact (List.any_eq_false.mp hf) c hc (jsEq_some_iff.mpr hce)
      · intro hn
        have hf : g.any (fun c => jsEq c.phoneNumber (some e)) = false :=
          List.any_eq_false.mpr (fun c hc hj => hn c hc (jsEq_some_iff.mp hj))
        rw [hf]
        rfl

theorem no_exact_pair_of_gap {g : List Contact} {q : IdentifyRequest}
    (h : (present q.email = true ∧ ∀ c ∈ g, c.email ≠ q.email) ∨
         (present q.phoneNumber = true ∧
           ∀ c ∈ g, c.phoneNumber ≠ q.phoneNumber)) :
    ¬ ∃ c ∈ g, c.email = q.email ∧ c.phoneNumber = q.phoneNumber := by
  rintro ⟨c, hc, hce, hcp⟩
  rcases h with ⟨-, hn⟩ | ⟨-, hn⟩
  · exact hn c hc hce
  · exact hn c hc hcp

/-- The source's create decision, characterised exactly as the spec words
it: at least one genuinely new attribute, and no member carrying the
exact pair. -/
theorem willCreate_iff_claim {g : List Contact} {q : IdentifyRequest} :
    willCreateSecondary g q = true ↔
      (((present q.email = true ∧ ∀ c ∈ g, c.email ≠ q.email) ∨
        (present q.phoneNumber = true ∧
          ∀ c ∈ g, c.phoneNumber ≠ q.phoneNumber)) ∧
       ¬ ∃ c ∈ g, c.email = q.email ∧ c.phoneNumber = q.phoneNumber) := by
  rw [willCreate_eq_hasNew, Bool.or_eq_true_iff, hasNewEmail_iff,
    hasNewPhone_iff]
  constructor
  · intro hA
    exact ⟨hA, no_exact_pair_of_gap hA⟩
  · rintro ⟨hA, -⟩
    exact hA

theorem matched_mem_group {s : Store} {q : IdentifyRequest} {t c : Contact}
    (hinv : StoreInv s) (h : truePrimaryContact s q = some t)
    (hc : c ∈ matchingContacts s q) :
    mergePatch t.id (otherPrimaryContactIds s q) c ∈
      allRelatedContacts s q := by
  unfold allRelatedContacts
  rw [h]
  show _ ∈ sortContacts ((mergedStore s q).filter (inGroup t.id))
  rw [mem_sortContacts]
  apply List.mem_filter.mpr
  refine ⟨?_, ?_⟩
  · rw [mergedStore_eq_map h]
    exact List.mem_map_of_mem _ (mem_matchingContacts.mp hc).1
  · have hlive :
        (mergePatch t.id (otherPrimaryContactIds s q) c).deletedAt = none := by
      rw [mergePatch_deletedAt]
      exact (mem_matchingContacts.mp hc).2.2
    rcases matched_patch_cases hinv h hc with hcase | ⟨-, hlid⟩
    · rw [hcase]
      exact truePrimary_inGroup (truePrimary_spec hinv h).2.1
    · simp [inGroup, hlid, isLive, hlive]

/-! ### Auxiliary facts about the controller paths -/

theorem identifyGroup_nocreate_store_ops {s : Store} {q : IdentifyRequest}
    {t : Contact}
    (hcr : willCreateSecondary (allRelatedContacts s q) q = false) :
    (identifyGroup s q t).store = mergedStore s q ∧
      (identifyGroup s q t).ops =
        [StoreOp.read, StoreOp.read] ++ mergeOps s q ++ [StoreOp.read] := by
  unfold identifyGroup
  rw [if_neg (by rw [hcr]; exact Bool.false_ne_true)]
  cases hfr : formatResponse (allRelatedContacts s q) <;> exact ⟨rfl, rfl⟩

theorem matching_ne_nil_of_truePrimary {s : Store} {q : IdentifyRequest}
    {t : Contact} (h : truePrimaryContact s q = some t) :
    matchingContacts s q ≠ [] := by
  intro hnil
  have hrp : relatedPrimaryIds s q = [] := by
    rw [relatedPrimaryIds, hnil]
    rfl
  have hc : candidateRecords s q = [] := by
    rw [candidateRecords, List.filter_eq_nil_iff]
    intro c hcs hpc
    rcases Bool.and_eq_true_iff.mp hpc with ⟨h1, -⟩
    rw [hrp] at h1
    exact absurd (natContains_iff.mp h1) (List.not_mem_nil _)
  have hap : allPrimaryContacts s q = [] := by
    rw [allPrimaryContacts, hc]
    rfl
  unfold truePrimaryContact at h
  rw [hap] at h
  cases h

theorem create_not_mem_mergeOps (s : Store) (q : IdentifyRequest) :
    StoreOp.create ∉ mergeOps s q := by
  unfold mergeOps
  split
  · simp
  · decide

theorem create_not_mem_readOps {s : Store} {q : IdentifyRequest} :
    StoreOp.create ∉
      ([StoreOp.read, StoreOp.read] ++ mergeOps s q ++ [StoreOp.read]) := by
  intro hmem
  rcases List.mem_append.mp hmem with hmem | hmem
  · rcases List.mem_append.mp hmem with hmem | hmem
    · exact absurd hmem (by decide)
    · exact absurd hmem (create_not_mem_mergeOps s q)
  · exact absurd hmem (by decide)

theorem create_mem_ops_iff {s : Store} {q : IdentifyRequest} {t : Contact}
    (hwf : wellFormed q) (hne : matchingContacts s q ≠ [])
    (h : truePrimaryContact s q = some t) :
    StoreOp.create ∈ (identify s q).ops ↔
      willCreateSecondary (allRelatedContacts s q) q = true := by
  rw [identify_eq_group hwf hne h]
  by_cases hcr : willCreateSecondary (allRelatedContacts s q) q = true
  · rw [(identifyGroup_create hcr).2]
    simp only [hcr, iff_true]
    apply List.mem_append_right
    decide
  · rw [(identifyGroup_nocreate_store_ops (bool_eq_false hcr)).2]
    constructor
    · intro hmem
      exact absurd hmem create_not_mem_readOps
    · intro hx
      exact absurd hx hcr

theorem identify_store_cases {s : Store} {q : IdentifyRequest} {t : Contact}
    (hwf : wellFormed q) (hne : matchingContacts s q ≠ [])
    (h : truePrimaryContact s q = some t) :
    (identify s q).store = mergedStore s q ++
      (if willCreateSecondary (allRelatedContacts s q) q then
        [newSecondaryContact (mergedStore s q) q t.id] else []) := by
  rw [identify_eq_group hwf hne h]
  by_cases hcr : willCreateSecondary (allRelatedContacts s q) q = true
  · rw [if_pos hcr]
    exact (identifyGroup_create hcr).1
  · have hcf := bool_eq_false hcr
    rw [if_neg (by rw [hcf]; exact Bool.false_ne_true),
      (identifyGroup_nocreate_store_ops hcf).1, List.append_nil]

theorem freshId_merged {s : Store} {q : IdentifyRequest} :
    freshId (mergedStore s q) = freshId s := by
  unfold freshId maxId
  rw [merged_map_id]

theorem finalContactsList_eq {s : Store} {q : IdentifyRequest} {t : Contact}
    (h : truePrimaryContact s q = some t) :
    finalContactsList s q = some
      (if willCreateSecondary (allRelatedContacts s q) q then
        allRelatedContacts s q ++ [newSecondaryContact (mergedStore s q) q t.id]
      else allRelatedContacts s q) := by
  unfold finalContactsList
  rw [h]
  show (if willCreateSecondary (allRelatedContacts s q) q then
      some (allRelatedContacts s q ++
        [newSecondaryContact (mergedStore s q) q t.id])
    else some (allRelatedContacts s q)) = _
  by_cases hcr : willCreateSecondary (allRelatedContacts s q) q = true
  · rw [if_pos hcr, if_pos hcr]
  · rw [if_neg (by rw [bool_eq_false hcr]; exact Bool.false_ne_true),
      if_neg (by rw [bool_eq_false hcr]; exact Bool.false_ne_true)]

theorem flat_of_inv {st : Store} (hinv : StoreInv st) :
    ∀ c' ∈ st, c'.deletedAt = none →
      c'.linkPrecedence = LinkPrecedence.secondary →
        ∀ d' ∈ st, c'.linkedId = some d'.id →
          d'.linkPrecedence = LinkPrecedence.primary := by
  intro c' hc' hlive hsec d' hd' hlid
  rcases hinv.2.2.2 c' hc' hlive hsec with ⟨p, hps, hpl, -, hpp⟩
  rw [hpl] at hlid
  have hdp : d' = p := id_inj hinv.1 hd' hps (Option.some.inj hlid).symm
  rw [hdp]
  exact hpp

/-- The final store of a group-path run satisfies the store invariant. -/
theorem StoreInv_final {s : Store} {q : IdentifyRequest} {t : Contact}
    (hinv : StoreInv s) (hwf : wellFormed q)
    (hne : matchingContacts s q ≠ [])
    (h : truePrimaryContact s q = some t) :
    StoreInv ((identify s q).store) := by
  rw [identify_store_cases hwf hne h]
  have hmi := @StoreInv_merged s q hinv
  by_cases hcr : willCreateSecondary (allRelatedContacts s q) q = true
  · rw [if_pos hcr]
    have htm := truePrimary_mem_merged hinv h
    exact StoreInv_append_secondary hmi htm (truePrimary_spec hinv h).2.1
      (truePrimary_spec hinv h).2.2.1
  · rw [if_neg (by rw [bool_eq_false hcr]; exact Bool.false_ne_true),
      List.append_nil]
    exact hmi

/-! ### Re-running the reconciliation on the merged store -/

theorem matching_merged {s : Store} {q : IdentifyRequest} {t : Contact}
    (h : truePrimaryContact s q = some t) :
    matchingContacts (mergedStore s q) q =
      (matchingContacts s q).map
        (mergePatch t.id (otherPrimaryContactIds s q)) := by
  unfold matchingContacts
  rw [mergedStore_eq_map h, List.filter_map]
  have hcong : ∀ c ∈ s,
      ((fun c => matchesQuery q c && isLive c) ∘
        mergePatch t.id (otherPrimaryContactIds s q)) c =
      (fun c => matchesQuery q c && isLive c) c := by
    intro c _
    show (matchesQuery q (mergePatch t.id (otherPrimaryContactIds s q) c) &&
        isLive (mergePatch t.id (otherPrimaryContactIds s q) c)) =
      (matchesQuery q c && isLive c)
    unfold matchesQuery isLive
    rw [mergePatch_email, mergePatch_phoneNumber, mergePatch_deletedAt]
  rw [List.filter_congr hcong]

theorem rpids_merged_sub {s : Store} {q : IdentifyRequest} {t : Contact}
    (hinv : StoreInv s) (h : truePrimaryContact s q = some t) :
    ∀ j ∈ relatedPrimaryIds (mergedStore s q) q, j = t.id := by
  intro j hj
  unfold relatedPrimaryIds at hj
  rw [matching_merged h] at hj
  rcases List.mem_filterMap.mp hj with ⟨c2, hc2, hcj⟩
  rcases List.mem_map.mp hc2 with ⟨c, hc, rfl⟩
  rcases matched_patch_cases hinv h hc with hcase | ⟨hsec2, hlid⟩
  · rw [hcase] at hcj
    rw [if_pos (by rw [beq_iff_eq]; exact (truePrimary_spec hinv h).2.2.1)]
      at hcj
    exact (Option.some.inj hcj).symm
  · have ht0 : t.id ≠ 0 :=
      Nat.pos_iff_ne_zero.mp (hinv.2.1 t (truePrimary_spec hinv h).1)
    rw [if_neg (by rw [beq_iff_eq, hsec2]; intro hx; cases hx)] at hcj
    simp only [hlid] at hcj
    rw [if_neg (by rw [beq_iff_eq]; exact ht0)] at hcj
    exact (Option.some.inj hcj).symm

theorem rpids_merged_mem {s : Store} {q : IdentifyRequest} {t c : Contact}
    (hinv : StoreInv s) (h : truePrimaryContact s q = some t)
    (hc : c ∈ matchingContacts s q) :
    t.id ∈ relatedPrimaryIds (mergedStore s q) q := by
  unfold relatedPrimaryIds
  rw [matching_merged h]
  apply List.mem_filterMap.mpr
  refine ⟨mergePatch t.id (otherPrimaryContactIds s q) c,
    List.mem_map_of_mem _ hc, ?_⟩
  rcases matched_patch_cases hinv h hc with hcase | ⟨hsec2, hlid⟩
  · rw [hcase,
      if_pos (by rw [beq_iff_eq]; exact (truePrimary_spec hinv h).2.2.1)]
  · have ht0 : t.id ≠ 0 :=
      Nat.pos_iff_ne_zero.mp (hinv.2.1 t (truePrimary_spec hinv h).1)
    rw [if_neg (by rw [beq_iff_eq, hsec2]; intro hx; cases hx)]
    simp only [hlid]
    rw [if_neg (by rw [beq_iff_eq]; exact ht0)]

theorem candidates_merged {s : Store} {q : IdentifyRequest} {t c : Contact}
    (hinv : StoreInv s) (h : truePrimaryContact s q = some t)
    (hc : c ∈ matchingContacts s q) :
    candidateRecords (mergedStore s q) q = [t] := by
  have hinv1 : StoreInv (mergedStore s q) := StoreInv_merged hinv
  have htm := truePrimary_mem_merged hinv h
  unfold candidateRecords
  apply filter_eq_singleton hinv1.1 htm
  intro d hd
  constructor
  · intro hpd
    rcases Bool.and_eq_true_iff.mp hpd with ⟨h1, -⟩
    have hdid : d.id = t.id :=
      rpids_merged_sub hinv h d.id (natContains_iff.mp h1)
    exact id_inj hinv1.1 hd htm hdid
  · rintro rfl
    rw [Bool.and_eq_true_iff]
    refine ⟨natContains_iff.mpr (rpids_merged_mem hinv h hc), ?_⟩
    simp [isLive, (truePrimary_spec hinv h).2.1]

theorem truePrimary_merged {s : Store} {q : IdentifyRequest} {t c : Contact}
    (hinv : StoreInv s) (h : truePrimaryContact s q = some t)
    (hc : c ∈ matchingContacts s q) :
    truePrimaryContact (mergedStore s q) q = some t := by
  unfold truePrimaryContact allPrimaryContacts
  rw [candidates_merged hinv h hc]
  rfl

theorem losers_merged {s : Store} {q : IdentifyRequest} {t c : Contact}
    (hinv : StoreInv s) (h : truePrimaryContact s q = some t)
    (hc : c ∈ matchingContacts s q) :
    otherPrimaryContactIds (mergedStore s q) q = [] := by
  unfold otherPrimaryContactIds allPrimaryContacts
  rw [candidates_merged hinv h hc]
  rfl

theorem merged_idem {s : Store} {q : IdentifyRequest} {t c : Contact}
    (hinv : StoreInv s) (h : truePrimaryContact s q = some t)
    (hc : c ∈ matchingContacts s q) :
    mergedStore (mergedStore s q) q = mergedStore s q := by
  rw [mergedStore_eq_map (truePrimary_merged hinv h hc),
    losers_merged hinv h hc]
  exact List.map_id'' (mergePatch_nil t.id) _

theorem group_merged {s : Store} {q : IdentifyRequest} {t c : Contact}
    (hinv : StoreInv s) (h : truePrimaryContact s q = some t)
    (hc : c ∈ matchingContacts s q) :
    allRelatedContacts (mergedStore s q) q = allRelatedContacts s q := by
  unfold allRelatedContacts
  rw [truePrimary_merged hinv h hc, h]
  show sortContacts ((mergedStore (mergedStore s q) q).filter (inGroup t.id)) =
    sortContacts ((mergedStore s q).filter (inGroup t.id))
  rw [merged_idem hinv h hc]

theorem mergeOps_merged {s : Store} {q : IdentifyRequest} {t c : Contact}
    (hinv : StoreInv s) (h : truePrimaryContact s q = some t)
    (hc : c ∈ matchingContacts s q) :
    mergeOps (mergedStore s q) q = [] := by
  unfold mergeOps
  rw [losers_merged hinv h hc]
  rfl

/-! ### Exact-match requests -/

theorem exact_match_matched {s : Store} {q : IdentifyRequest} {r : Contact}
    (hwf : wellFormed q) (hr : r ∈ s) (hlive : r.deletedAt = none)
    (he : r.email = q.email) (hp : r.phoneNumber = q.phoneNumber) :
    r ∈ matchingContacts s q := by
  apply mem_matchingContacts.mpr
  refine ⟨hr, ?_, hlive⟩
  unfold matchesQuery
  rcases hwf with hw | hw
  · apply Bool.or_eq_true_iff.mpr
    left
    rw [Bool.and_eq_true_iff]
    refine ⟨hw, ?_⟩
    cases hqe : q.email with
    | none =>
        rw [hqe] at hw
        exact absurd hw (by decide)
    | some e =>
        rw [hqe] at he
        rw [he]
        simp [jsEq]
  · apply Bool.or_eq_true_iff.mpr
    right
    rw [Bool.and_eq_true_iff]
    refine ⟨hw, ?_⟩
    cases hqp : q.phoneNumber with
    | none =>
        rw [hqp] at hw
        exact absurd hw (by decide)
    | some e =>
        rw [hqp] at hp
        rw [hp]
        simp [jsEq]

theorem exact_match_no_create {s : Store} {q : IdentifyRequest}
    {t r : Contact} (hinv : StoreInv s) (hwf : wellFormed q)
    (h : truePrimaryContact s q = some t) (hr : r ∈ s)
    (hlive : r.deletedAt = none) (he : r.email = q.email)
    (hp : r.phoneNumber = q.phoneNumber) :
    willCreateSecondary (allRelatedContacts s q) q = false := by
  have hm := exact_match_matched hwf hr hlive he hp
  have hg := matched_mem_group hinv h hm
  have hre : (mergePatch t.id (otherPrimaryContactIds s q) r).email =
      q.email := by
    rw [mergePatch_email, he]
  have hrp : (mergePatch t.id (otherPrimaryContactIds s q) r).phoneNumber =
      q.phoneNumber := by
    rw [mergePatch_phoneNumber, hp]
  rw [willCreate_eq_hasNew]
  have h1 : hasNewEmail (allRelatedContacts s q) q = false := by
    cases hx : hasNewEmail (allRelatedContacts s q) q
    · rfl
    · rcases hasNewEmail_iff.mp hx with ⟨-, hall⟩
      exact absurd hre (hall _ hg)
  have h2 : hasNewPhone (allRelatedContacts s q) q = false := by
    cases hx : hasNewPhone (allRelatedContacts s q) q
    · rfl
    · rcases hasNewPhone_iff.mp hx with ⟨-, hall⟩
      exact absurd hrp (hall _ hg)
  rw [h1, h2]
  rfl

theorem exact_match_run1 {s : Store} {q : IdentifyRequest} {t r : Contact}
    (hinv : StoreInv s) (hwf : wellFormed q)
    (h : truePrimaryContact s q = some t) (hr : r ∈ s)
    (hlive : r.deletedAt = none) (he : r.email = q.email)
    (hp : r.phoneNumber = q.phoneNumber) :
    ∃ resp, formatResponse (allRelatedContacts s q) = some resp ∧
      identify s q =
        { result := IdentifyResult.ok resp, store := mergedStore s q,
          ops := [StoreOp.read, StoreOp.read] ++ mergeOps s q ++
            [StoreOp.read] } := by
  rcases formatResponse_isSome (group_ne_nil hinv h) with ⟨resp, hfr⟩
  have hne := matching_ne_nil_of_truePrimary h
  refine ⟨resp, hfr, ?_⟩
  rw [identify_eq_group hwf hne h,
    identifyGroup_nocreate (exact_match_no_create hinv hwf h hr hlive he hp)
      hfr]

theorem exact_match_run2 {s : Store} {q : IdentifyRequest} {t r : Contact}
    (hinv : StoreInv s) (hwf : wellFormed q)
    (h : truePrimaryContact s q = some t) (hr : r ∈ s)
    (hlive : r.deletedAt = none) (he : r.email = q.email)
    (hp : r.phoneNumber = q.phoneNumber) :
    ∃ resp, formatResponse (allRelatedContacts s q) = some resp ∧
      identify (mergedStore s q) q =
        { result := IdentifyResult.ok resp, store := mergedStore s q,
          ops := [StoreOp.read, StoreOp.read] ++ [StoreOp.read] } := by
  have hm := exact_match_matched hwf hr hlive he hp
  rcases formatResponse_isSome (group_ne_nil hinv h) with ⟨resp, hfr⟩
  refine ⟨resp, hfr, ?_⟩
  have h2 : truePrimaryContact (mergedStore s q) q = some t :=
    truePrimary_merged hinv h hm
  have hne2 : matchingContacts (mergedStore s q) q ≠ [] :=
    matching_ne_nil_of_truePrimary h2
  have hgroup2 := group_merged hinv h hm
  have hcr2 : willCreateSecondary
      (allRelatedContacts (mergedStore s q) q) q = false := by
    rw [hgroup2]
    exact exact_match_no_create hinv hwf h hr hlive he hp
  have hfr2 : formatResponse (allRelatedContacts (mergedStore s q) q) =
      some resp := by
    rw [hgroup2]
    exact hfr
  rw [identify_eq_group hwf hne2 h2, identifyGroup_nocreate hcr2 hfr2,
    merged_idem hinv h hm, mergeOps_merged hinv h hm]
  rfl

theorem identifyGroup_result_ok {s : Store} {q : IdentifyRequest}
    {t : Contact} (hinv : StoreInv s)
    (h : truePrimaryContact s q = some t) :
    ∃ resp, (identifyGroup s q t).result = IdentifyResult.ok resp := by
  by_cases hcr : willCreateSecondary (allRelatedContacts s q) q = true
  · have hne2 : allRelatedContacts s q ++
        [newSecondaryContact (mergedStore s q) q t.id] ≠ [] := by
      simp
    rcases formatResponse_isSome hne2 with ⟨resp, hfr⟩
    exact ⟨resp, identifyGroup_create_result hcr hfr⟩
  · rcases formatResponse_isSome (group_ne_nil hinv h) with ⟨resp, hfr⟩
    refine ⟨resp, ?_⟩
    rw [identifyGroup_nocreate (bool_eq_false hcr) hfr]

/-! ### The claims -/

/-- Claim C6: a request with both email and phoneNumber absent or empty
fails with the validation error, performs zero store reads or writes, and
leaves the store unchanged. -/
theorem claim_C6 (s : Store) (q : IdentifyRequest)
    (he : present q.email = false) (hp : present q.phoneNumber = false) :
    (identify s q).result = IdentifyResult.validationError ∧
      (identify s q).store = s ∧ (identify s q).ops = [] := by
  rw [identify_invalid he hp]
  exact ⟨rfl, rfl, rfl⟩

/-- Witness for C6: an empty-string email with no phone number. -/
theorem claim_C6_witness :
    present wEmpty.email = false ∧ present wEmpty.phoneNumber = false ∧
      ((identify [wContactA] wEmpty).result =
          IdentifyResult.validationError ∧
        (identify [wContactA] wEmpty).store = [wContactA] ∧
        (identify [wContactA] wEmpty).ops = []) :=
  ⟨by decide, by decide, claim_C6 [wContactA] wEmpty (by decide) (by decide)⟩

/-- Claim C4: a well-formed request matching no live record creates
exactly one new record, a primary, and the response reports it as the
sole group member: its own attributes are the only email/phone entries
and secondaryContactIds is empty. -/
theorem claim_C4 (s : Store) (q : IdentifyRequest) (hwf : wellFormed q)
    (hnm : ∀ c ∈ s, c.deletedAt = none → matchesQuery q c = false) :
    (identify s q).store = s ++ [newPrimaryContact s q] ∧
      (newPrimaryContact s q).linkPrecedence = LinkPrecedence.primary ∧
      (identify s q).result = IdentifyResult.ok
        { primaryContatctId := (newPrimaryContact s q).id,
          emails := filterBooleanStr [q.email],
          phoneNumbers := filterBooleanStr [q.phoneNumber],
          secondaryContactIds := [] } ∧
      (identify s q).ops = [StoreOp.read, StoreOp.create] := by
  rw [identify_noMatch hwf (matching_eq_nil hnm)]
  exact ⟨rfl, rfl, rfl, rfl⟩

/-- Witness for C4: a fresh pair against the empty store. -/
theorem claim_C4_witness :
    wellFormed wExact ∧
      (∀ c ∈ ([] : Store), c.deletedAt = none →
        matchesQuery wExact c = false) ∧
      ((identify [] wExact).store = [] ++ [newPrimaryContact [] wExact] ∧
        (newPrimaryContact [] wExact).linkPrecedence =
          LinkPrecedence.primary ∧
        (identify [] wExact).result = IdentifyResult.ok
          { primaryContatctId := (newPrimaryContact [] wExact).id,
            emails := filterBooleanStr [wExact.email],
            phoneNumbers := filterBooleanStr [wExact.phoneNumber],
            secondaryContactIds := [] } ∧
        (identify [] wExact).ops = [StoreOp.read, StoreOp.create]) :=
  ⟨by decide, by decide, claim_C4 [] wExact (by decide) (by decide)⟩

/-- Claim C9: the response projection is a pure function of the group
record list: two runs over the same fixed list produce the same primary
id, the same emails list in the same order, the same phoneNumbers list in
the same order, and the same secondaryContactIds list in the same order. -/
theorem claim_C9 (l1 l2 : List Contact) (h : l1 = l2) :
    (formatResponse l1).map FormattedContact.primaryContatctId =
        (formatResponse l2).map FormattedContact.primaryContatctId ∧
      (formatResponse l1).map FormattedContact.emails =
        (formatResponse l2).map FormattedContact.emails ∧
      (formatResponse l1).map FormattedContact.phoneNumbers =
        (formatResponse l2).map FormattedContact.phoneNumbers ∧
      (formatResponse l1).map FormattedContact.secondaryContactIds =
        (formatResponse l2).map FormattedContact.secondaryContactIds := by
  subst h
  exact ⟨rfl, rfl, rfl, rfl⟩

/-- Witness for C9 at a concrete group list. -/
theorem claim_C9_witness :
    [wContactA, wContactB] = [wContactA, wContactB] ∧
      ((formatResponse [wContactA, wContactB]).map
          FormattedContact.primaryContatctId =
        (formatResponse [wContactA, wContactB]).map
          FormattedContact.primaryContatctId ∧
      (formatResponse [wContactA, wContactB]).map FormattedContact.emails =
        (formatResponse [wContactA, wContactB]).map
          FormattedContact.emails ∧
      (formatResponse [wContactA, wContactB]).map
          FormattedContact.phoneNumbers =
        (formatResponse [wContactA, wContactB]).map
          FormattedContact.phoneNumbers ∧
      (formatResponse [wContactA, wContactB]).map
          FormattedContact.secondaryContactIds =
        (formatResponse [wContactA, wContactB]).map
          FormattedContact.secondaryContactIds) :=
  ⟨rfl, claim_C9 [wContactA, wContactB] [wContactA, wContactB] rfl⟩

/-- Claim C2: for a non-empty candidate primary set the elected canonical
primary is a candidate record that is least under ascending
(createdAt, id) among all candidate records; in particular, with equal
createdAt the smaller id wins. -/
theorem claim_C2 (s : Store) (q : IdentifyRequest) (t : Contact)
    (h : truePrimaryContact s q = some t) :
    t ∈ candidateRecords s q ∧
      ∀ c ∈ candidateRecords s q,
        t.createdAt < c.createdAt ∨
          (t.createdAt = c.createdAt ∧ t.id ≤ c.id) := by
  refine ⟨truePrimary_mem_candidates h, ?_⟩
  intro c hc
  rcases allPrimary_decomp h with ⟨rest, hr⟩
  have hr' : sortContacts (candidateRecords s q) = t :: rest := hr
  have hk := sortContacts_head_min hr' c hc
  simpa only [keyLe, Bool.or_eq_true, Bool.and_eq_true_iff,
    decide_eq_true_eq, beq_iff_eq] using hk

/-- Witness for C2: two primaries sharing createdAt; the smaller id (4,
listed second in the store) is elected over id 9. -/
theorem claim_C2_witness :
    truePrimaryContact [wTieB, wTieA] wTieQ = some wTieA ∧
      (wTieA ∈ candidateRecords [wTieB, wTieA] wTieQ ∧
        ∀ c ∈ candidateRecords [wTieB, wTieA] wTieQ,
          wTieA.createdAt < c.createdAt ∨
            (wTieA.createdAt = c.createdAt ∧ wTieA.id ≤ c.id)) :=
  ⟨by decide, claim_C2 [wTieB, wTieA] wTieQ wTieA (by decide)⟩

/-- Claim C8 (code bug): at the failing input the successful response's
contact object carries the canonical primary's id under the misspelled
key primaryContatctId (source line 199) and has no field named
primaryContactId, contradicting the README's documented response shape
and the spec. -/
theorem claim_C8_bug :
    (identify [] wExact).result = IdentifyResult.ok
        { primaryContatctId := 1, emails := ["alice@x.com"],
          phoneNumbers := ["111"], secondaryContactIds := [] } ∧
      (contactObject
          { primaryContatctId := 1, emails := ["alice@x.com"],
            phoneNumbers := ["111"], secondaryContactIds := [] }).lookup
          ("primaryContactId") = none ∧
      (contactObject
          { primaryContatctId := 1, emails := ["alice@x.com"],
            phoneNumbers := ["111"], secondaryContactIds := [] }).lookup
          ("primaryContatctId") = some (JsonValue.num 1) := by
  refine ⟨by decide, by decide, by decide⟩

/-- Claim C1: on a flat store, when the candidate primary set holds more
than one primary, after the reconciliation every record whose id is a
loser's id is a secondary pointing at the canonical primary, every record
whose linkedId was a loser's id points at the canonical primary, and no
live secondary of the final store references a secondary (link depth
stays at most 1). -/
theorem claim_C1 (s : Store) (q : IdentifyRequest) (t : Contact)
    (hinv : StoreInv s) (hwf : wellFormed q)
    (h : truePrimaryContact s q = some t)
    (_hmany : 1 < (allPrimaryContacts s q).length) :
    (∀ c' ∈ (identify s q).store, c'.id ∈ otherPrimaryContactIds s q →
        c'.linkPrecedence = LinkPrecedence.secondary ∧
          c'.linkedId = some t.id) ∧
    (∀ c ∈ s, ∀ l, c.linkedId = some l → l ∈ otherPrimaryContactIds s q →
        ∀ c' ∈ (identify s q).store, c'.id = c.id →
          c'.linkedId = some t.id) ∧
    (∀ c' ∈ (identify s q).store, c'.deletedAt = none →
        c'.linkPrecedence = LinkPrecedence.secondary →
          ∀ d' ∈ (identify s q).store, c'.linkedId = some d'.id →
            d'.linkPrecedence = LinkPrecedence.primary) := by
  have hne := matching_ne_nil_of_truePrimary h
  have hstore := identify_store_cases hwf hne h
  have hlosers_lt : ∀ j ∈ otherPrimaryContactIds s q, j < freshId s := by
    intro j hj
    rcases losers_spec h hj with ⟨c, hc, rfl⟩
    exact lt_freshId (mem_candidateRecords.mp hc).1
  have hmem_store : ∀ c' ∈ (identify s q).store,
      c' ∈ mergedStore s q ∨
        c' = newSecondaryContact (mergedStore s q) q t.id := by
    intro c' hc'
    rw [hstore] at hc'
    rcases List.mem_append.mp hc' with hm | hm
    · exact Or.inl hm
    · right
      split at hm
      · simpa using hm
      · cases hm
  refine ⟨?_, ?_, ?_⟩
  · intro c' hc' hid
    rcases hmem_store c' hc' with hm | rfl
    · rw [mergedStore_eq_map h] at hm
      rcases List.mem_map.mp hm with ⟨c, hcs, rfl⟩
      rw [mergePatch_id] at hid
      rw [mergePatch_of_loser (natContains_iff.mpr hid)]
      exact ⟨rfl, rfl⟩
    · exfalso
      have h1 := hlosers_lt _ hid
      have h2 : (newSecondaryContact (mergedStore s q) q t.id).id =
          freshId s := freshId_merged
      omega
  · intro c hcs l hl hll c' hc' hid
    rcases hmem_store c' hc' with hm | rfl
    · rw [mergedStore_eq_map h] at hm
      rcases List.mem_map.mp hm with ⟨d, hds, rfl⟩
      rw [mergePatch_id] at hid
      have hdc : d = c := id_inj hinv.1 hds hcs hid
      subst hdc
      by_cases hdl : (otherPrimaryContactIds s q).contains d.id = true
      · rw [mergePatch_of_loser hdl]
      · have hin : linkedIdIn (otherPrimaryContactIds s q) d = true := by
          rw [linkedIdIn_some hl]
          exact natContains_iff.mpr hll
        rw [mergePatch_of_child (bool_eq_false hdl) hin]
    · exfalso
      have h1 : c.id < freshId s := lt_freshId hcs
      have h3 : (newSecondaryContact (mergedStore s q) q t.id).id =
          freshId s := freshId_merged
      omega
  · exact flat_of_inv (StoreInv_final hinv hwf hne h)

/-- Witness for C1: two primaries bridged by one request, the younger one
carrying a secondary child. -/
theorem claim_C1_witness :
    StoreInv [wContactA, wContactB, wContactC] ∧ wellFormed wBridge ∧
      truePrimaryContact [wContactA, wContactB, wContactC] wBridge =
        some wContactA ∧
      1 < (allPrimaryContacts [wContactA, wContactB, wContactC]
        wBridge).length ∧
      ((∀ c' ∈ (identify [wContactA, wContactB, wContactC] wBridge).store,
          c'.id ∈ otherPrimaryContactIds [wContactA, wContactB, wContactC]
            wBridge →
            c'.linkPrecedence = LinkPrecedence.secondary ∧
              c'.linkedId = some wContactA.id) ∧
      (∀ c ∈ [wContactA, wContactB, wContactC], ∀ l, c.linkedId = some l →
          l ∈ otherPrimaryContactIds [wContactA, wContactB, wContactC]
            wBridge →
          ∀ c' ∈ (identify [wContactA, wContactB, wContactC] wBridge).store,
            c'.id = c.id → c'.linkedId = some wContactA.id) ∧
      (∀ c' ∈ (identify [wContactA, wContactB, wContactC] wBridge).store,
          c'.deletedAt = none →
          c'.linkPrecedence = LinkPrecedence.secondary →
            ∀ d' ∈ (identify [wContactA, wContactB, wContactC]
                wBridge).store,
              c'.linkedId = some d'.id →
                d'.linkPrecedence = LinkPrecedence.primary)) :=
  ⟨by decide, by decide, by decide, by decide,
    claim_C1 [wContactA, wContactB, wContactC] wBridge wContactA (by decide)
      (by decide) (by decide) (by decide)⟩

/-- Claim C3: on the group path a new record is created iff (the query
email is present and equals no group member's email, or the query phone
is present and equals no group member's phone) and no group member
carries exactly the query's (email, phone) pair; the created record is a
secondary with the query's attributes linked to the canonical primary. -/
theorem claim_C3 (s : Store) (q : IdentifyRequest) (t : Contact)
    (_hinv : StoreInv s) (hwf : wellFormed q)
    (hne : matchingContacts s q ≠ [])
    (h : truePrimaryContact s q = some t) :
    (StoreOp.create ∈ (identify s q).ops ↔
      (((present q.email = true ∧
          ∀ c ∈ allRelatedContacts s q, c.email ≠ q.email) ∨
        (present q.phoneNumber = true ∧
          ∀ c ∈ allRelatedContacts s q, c.phoneNumber ≠ q.phoneNumber)) ∧
       ¬ ∃ c ∈ allRelatedContacts s q,
          c.email = q.email ∧ c.phoneNumber = q.phoneNumber)) ∧
    (StoreOp.create ∈ (identify s q).ops →
      (identify s q).store = mergedStore s q ++
          [newSecondaryContact (mergedStore s q) q t.id] ∧
        (newSecondaryContact (mergedStore s q) q t.id).email = q.email ∧
        (newSecondaryContact (mergedStore s q) q t.id).phoneNumber =
          q.phoneNumber ∧
        (newSecondaryContact (mergedStore s q) q t.id).linkedId =
          some t.id ∧
        (newSecondaryContact (mergedStore s q) q t.id).linkPrecedence =
          LinkPrecedence.secondary) := by
  refine ⟨(create_mem_ops_iff hwf hne h).trans willCreate_iff_claim, ?_⟩
  intro hcreate
  have hcr := (create_mem_ops_iff hwf hne h).mp hcreate
  refine ⟨?_, rfl, rfl, rfl, rfl⟩
  rw [identify_eq_group hwf hne h]
  exact (identifyGroup_create hcr).1

/-- Witness for C3: an existing contact queried with its email and a new
phone number; the gap filler fires. -/
theorem claim_C3_witness :
    StoreInv [wContactA] ∧ wellFormed wGap ∧
      matchingContacts [wContactA] wGap ≠ [] ∧
      truePrimaryContact [wContactA] wGap = some wContactA ∧
      ((StoreOp.create ∈ (identify [wContactA] wGap).ops ↔
        (((present wGap.email = true ∧
            ∀ c ∈ allRelatedContacts [wContactA] wGap,
              c.email ≠ wGap.email) ∨
          (present wGap.phoneNumber = true ∧
            ∀ c ∈ allRelatedContacts [wContactA] wGap,
              c.phoneNumber ≠ wGap.phoneNumber)) ∧
         ¬ ∃ c ∈ allRelatedContacts [wContactA] wGap,
            c.email = wGap.email ∧ c.phoneNumber = wGap.phoneNumber)) ∧
      (StoreOp.create ∈ (identify [wContactA] wGap).ops →
        (identify [wContactA] wGap).store =
            mergedStore [wContactA] wGap ++
              [newSecondaryContact (mergedStore [wContactA] wGap) wGap
                wContactA.id] ∧
          (newSecondaryContact (mergedStore [wContactA] wGap) wGap
            wContactA.id).email = wGap.email ∧
          (newSecondaryContact (mergedStore [wContactA] wGap) wGap
            wContactA.id).phoneNumber = wGap.phoneNumber ∧
          (newSecondaryContact (mergedStore [wContactA] wGap) wGap
            wContactA.id).linkedId = some wContactA.id ∧
          (newSecondaryContact (mergedStore [wContactA] wGap) wGap
            wContactA.id).linkPrecedence = LinkPrecedence.secondary)) :=
  ⟨by decide, by decide, by decide, by decide,
    claim_C3 [wContactA] wGap wContactA (by decide) (by decide) (by decide)
      (by decide)⟩

/-- Claim C10: on a flat store the controller never dereferences a
missing element: the result is never the internal error, and whenever a
canonical primary is resolved the record list handed to the projection
is a `some`, non-empty, and the projection succeeds on it. -/
theorem claim_C10 (s : Store) (q : IdentifyRequest) (hinv : StoreInv s) :
    (identify s q).result ≠ IdentifyResult.internalError ∧
      ∀ t, truePrimaryContact s q = some t →
        ∃ g, finalContactsList s q = some g ∧ g ≠ [] ∧
          ∃ resp, formatResponse g = some resp := by
  constructor
  · by_cases hwf : wellFormed q
    · by_cases hnil : matchingContacts s q = []
      · rw [identify_noMatch hwf hnil]
        intro hx
        cases hx
      · rcases truePrimary_isSome hinv hnil with ⟨t, ht⟩
        rw [identify_eq_group hwf hnil ht]
        rcases identifyGroup_result_ok hinv ht with ⟨resp, hok⟩
        intro hx
        rw [hok] at hx
        cases hx
    · have hno : present q.email = false ∧ present q.phoneNumber = false := by
        unfold wellFormed at hwf
        push_neg at hwf
        exact ⟨bool_eq_false hwf.1, bool_eq_false hwf.2⟩
      rw [identify_invalid hno.1 hno.2]
      intro hx
      cases hx
  · intro t ht
    have hgne : (if willCreateSecondary (allRelatedContacts s q) q then
        allRelatedContacts s q ++
          [newSecondaryContact (mergedStore s q) q t.id]
      else allRelatedContacts s q) ≠ [] := by
      by_cases hcr : willCreateSecondary (allRelatedContacts s q) q = true
      · rw [if_pos hcr]
        simp
      · rw [if_neg (by rw [bool_eq_false hcr]; exact Bool.false_ne_true)]
        exact group_ne_nil hinv ht
    exact ⟨_, finalContactsList_eq ht, hgne, formatResponse_isSome hgne⟩

/-- Witness for C10 on the merging store. -/
theorem claim_C10_witness :
    StoreInv [wContactA, wContactB, wContactC] ∧
      ((identify [wContactA, wContactB, wContactC] wBridge).result ≠
          IdentifyResult.internalError ∧
        ∀ t, truePrimaryContact [wContactA, wContactB, wContactC] wBridge =
            some t →
          ∃ g, finalContactsList [wContactA, wContactB, wContactC] wBridge =
              some g ∧ g ≠ [] ∧
            ∃ resp, formatResponse g = some resp) :=
  ⟨by decide, claim_C10 [wContactA, wContactB, wContactC] wBridge
    (by decide)⟩

/-- Claim C5: when some live record carries exactly the request's
(email, phone) pair, the reconciliation creates no record, and an
immediately repeated identical call succeeds both times with the same
secondaryContactIds. -/
theorem claim_C5 (s : Store) (q : IdentifyRequest) (r : Contact)
    (hinv : StoreInv s) (hwf : wellFormed q) (hr : r ∈ s)
    (hlive : r.deletedAt = none) (he : r.email = q.email)
    (hp : r.phoneNumber = q.phoneNumber) :
    StoreOp.create ∉ (identify s q).ops ∧
      StoreOp.create ∉ (identify (identify s q).store q).ops ∧
      ∃ r1 r2, (identify s q).result = IdentifyResult.ok r1 ∧
        (identify (identify s q).store q).result = IdentifyResult.ok r2 ∧
        r2.secondaryContactIds = r1.secondaryContactIds := by
  have hne : matchingContacts s q ≠ [] :=
    List.ne_nil_of_mem (exact_match_matched hwf hr hlive he hp)
  rcases truePrimary_isSome hinv hne with ⟨t, ht⟩
  rcases exact_match_run1 hinv hwf ht hr hlive he hp with ⟨r1, hfr1, hrun1⟩
  rcases exact_match_run2 hinv hwf ht hr hlive he hp with ⟨r2, hfr2, hrun2⟩
  have hr21 : r2 = r1 := by
    rw [hfr1] at hfr2
    exact (Option.some.inj hfr2).symm
  subst hr21
  refine ⟨?_, ?_, r2, r2, ?_, ?_, rfl⟩
  · rw [hrun1]
    exact create_not_mem_readOps
  · rw [hrun1]
    show StoreOp.create ∉ (identify (mergedStore s q) q).ops
    rw [hrun2]
    show StoreOp.create ∉ [StoreOp.read, StoreOp.read] ++ [StoreOp.read]
    decide
  · rw [hrun1]
  · rw [hrun1]
    show (identify (mergedStore s q) q).result = IdentifyResult.ok r2
    rw [hrun2]

/-- Witness for C5: the exact pair of the sole stored contact. -/
theorem claim_C5_witness :
    StoreInv [wContactA] ∧ wellFormed wExact ∧ wContactA ∈ [wContactA] ∧
      wContactA.deletedAt = none ∧ wContactA.email = wExact.email ∧
      wContactA.phoneNumber = wExact.phoneNumber ∧
      (StoreOp.create ∉ (identify [wContactA] wExact).ops ∧
        StoreOp.create ∉
          (identify (identify [wContactA] wExact).store wExact).ops ∧
        ∃ r1 r2, (identify [wContactA] wExact).result =
            IdentifyResult.ok r1 ∧
          (identify (identify [wContactA] wExact).store wExact).result =
            IdentifyResult.ok r2 ∧
          r2.secondaryContactIds = r1.secondaryContactIds) :=
  ⟨by decide, by decide, by decide, by decide, by decide, by decide,
    claim_C5 [wContactA] wExact wContactA (by decide) (by decide)
      (by decide) (by decide) (by decide) (by decide)⟩

end IdentityRecon
